import Mathlib

/-!
# Store_Books_Frontend: the mock service's data layer

A shallow embedding of `src/services/mockServer.js`, `src/utils/idGenerator.js`, the state
functions of `src/context/LibraryContext.jsx` and `src/context/AuthContext.jsx`, the views
of `src/pages/Home.jsx` and `src/pages/BrowseBooks.jsx`, and the forms of
`src/pages/Books.jsx` and `src/pages/Stores.jsx`.

Modelling conventions
* A record is a JavaScript object. Its `id` key is kept apart from the other keys: an
  `Entity` always carries an integer `id`, a `Patch` (the argument of `create` and `update`)
  may or may not carry an `id` key. The other keys are an association list in key order.
* A JavaScript number is a double. An id is an integer that a double holds; it is kept as
  that integer, and the sum `max + 1` of the id rule is the double nearest to the exact sum
  (`toDouble`), which is the exact sum up to 2^53 and not above. `Math.max` and the
  comparisons of doubles are exact. `parseInt(id)` is the identity on an id, so the `id`
  argument of an operation is the integer that `parseInt` yields.
* The sum and the quotient of prices in the stores view are a parameter (`Arith`): in the
  browser they are the operations on doubles, which round.
* `localStorage` maps a slot name to the collection whose JSON text is stored there
  (`JSON.parse` after `JSON.stringify` gives the collection back), or to nothing.
* The simulated latency of `apiResponse` is not part of the model; a raised `Error(msg)` is
  `Except.error msg`.
* A seed resource is reachable and holds JSON: `fetch` is a total function of the path.
* The browser functions `btoa`, `atob`, `JSON.stringify` and `JSON.parse` of the token code
  are a parameter (`Platform`); what a theorem needs of them is a hypothesis of the theorem.
-/

namespace StoreBooks

/-! ## Records -/

/-- A JSON scalar stored under a key of a record. -/
inductive Value where
  | null
  | bool (b : Bool)
  | num (q : ℚ)
  | str (s : String)
deriving DecidableEq

/-- The keys of an object other than `id`, in key order, with their values. -/
abbrev Obj := List (String × Value)

/-- Property read `o[k]`; `none` is `undefined`. -/
def Obj.get (o : Obj) (k : String) : Option Value :=
  match o with
  | [] => none
  | (k', v) :: rest => if k' = k then some v else Obj.get rest k

/-- Object spread `{ ...a, ...b }` on the keys other than `id`: every key of `a` keeps its
place and takes the value `b` has for it, when `b` has the key; the keys that only `b`
has follow, in the order of `b`. -/
def spread (a b : Obj) : Obj :=
  a.map (fun kv => (kv.1, match Obj.get b kv.1 with
                          | some v => v
                          | none => kv.2))
    ++ b.filter (fun kv => (Obj.get a kv.1).isNone)

/-- A stored record: an object with an integer `id`, a double whose value is an integer. -/
structure Entity where
  id : Int
  fields : Obj
deriving DecidableEq

/-- An object handed to `create` or `update`: it may carry an `id` key. -/
structure Patch where
  id : Option Int
  fields : Obj
deriving DecidableEq

/-- An ordered sequence of records. -/
abbrev Collection := List Entity

/-- The spread `{ ...e, ...updates }` of a stored record and an update object. -/
def Entity.merge (e : Entity) (updates : Patch) : Entity :=
  ⟨match updates.id with
   | some v => v
   | none => e.id,
   spread e.fields updates.fields⟩

/-- The ids of a collection, `items.map(item => item.id)`. -/
def ids (items : Collection) : List Int := items.map Entity.id

/-! ## Doubles that hold integers -/

/-- The exponent of the spacing of the doubles at the magnitude `a`: the number of halvings
that bring `a` below 2^53, at most `fuel` of them. The doubles from `2 ^ (52 + e)` up to
`2 ^ (53 + e)` are the multiples of `2 ^ e`. -/
def spacingExp : Nat → Nat → Nat
  | 0, _ => 0
  | fuel + 1, a => if a < 2 ^ 53 then 0 else spacingExp fuel (a / 2) + 1

/-- The magnitude of the double nearest to the natural number `a`; of two doubles equally
near, the one with the even significand. Every finite double is below 2^1024, so 1024
halvings suffice. -/
def roundNat (a : Nat) : Nat :=
  let u := 2 ^ spacingExp 1024 a
  let q := a / u
  let r := a % u
  if 2 * r < u then q * u
  else if u < 2 * r then (q + 1) * u
  else if q % 2 = 0 then q * u else (q + 1) * u

/-- The double nearest to an integer (round to nearest, ties to even), for an integer of
magnitude below 2^1024: the value of a JavaScript sum or product whose exact value is that
integer. -/
def toDouble (n : Int) : Int :=
  if n < 0 then -(roundNat n.natAbs : Int) else (roundNat n.natAbs : Int)

/-! ## Id generation -/

/-- The value of `Math.max(x, ...xs)` on integers. -/
def Math.max (x : Int) (xs : List Int) : Int := xs.foldl Max.max x

/-- The function `generateId` of `mockServer.js`; `none` is an absent (`null`) argument.
The sum `Math.max(...) + 1` is a sum of doubles. -/
def generateId (items : Option Collection) : Int :=
  match items with
  | none => 1
  | some items =>
    match ids items with
    | [] => 1
    | x :: xs => toDouble (Math.max x xs + 1)

/-- The function `generateId` of `utils/idGenerator.js`. -/
def idGenerator.generateId (existingItems : Option Collection) : Int :=
  match existingItems with
  | none => 1
  | some existingItems =>
    match ids existingItems with
    | [] => 1
    | x :: xs => toDouble (Math.max x xs + 1)

/-! ## Storage -/

/-- The browser's `localStorage`, restricted to slots that hold a serialized collection. -/
abbrev Storage := String → Option Collection

/-- The call `localStorage.setItem(k, JSON.stringify(v))`. -/
def Storage.setItem (ls : Storage) (k : String) (v : Collection) : Storage :=
  fun k' => if k' = k then some v else ls k'

/-- The JSON of a seed resource: one object or an array of objects. -/
inductive Seed where
  | single (e : Entity)
  | array (c : Collection)
deriving DecidableEq

/-- The function `getData`: the stored collection when the slot is filled, otherwise the
seed resource, coerced to an array and stored. Returns the collection and the storage. -/
def getData (fetch : String → Seed) (key defaultPath : String) (ls : Storage) :
    Collection × Storage :=
  match ls ("library_" ++ key) with
  | some stored => (stored, ls)
  | none =>
    let arrayData : Collection :=
      match fetch defaultPath with
      | Seed.array c => c
      | Seed.single e => [e]
    (arrayData, ls.setItem ("library_" ++ key) arrayData)

/-- The function `saveData`. -/
def saveData (key : String) (data : Collection) (ls : Storage) : Storage :=
  ls.setItem ("library_" ++ key) data

/-! ## Responses -/

/-- The object `{ data, success }` that `apiResponse` returns. -/
structure Envelope (α : Type) where
  data : Option α
  success : Bool
deriving DecidableEq

/-- The object `{ success: true }` returned as data by the delete operations. -/
structure Ack where
  success : Bool
deriving DecidableEq

/-- The function `apiResponse(data, error)`: it throws when `error` is truthy, that is a
non-empty string, and returns the envelope otherwise. -/
def apiResponse {α : Type} (data : Option α) (error : Option String) :
    Except String (Envelope α) :=
  match error with
  | some msg => if msg ≠ "" then Except.error msg else Except.ok ⟨data, true⟩
  | none => Except.ok ⟨data, true⟩

/-! ## The four entity types

`mockAPI.books`, `mockAPI.authors`, `mockAPI.stores` and `mockAPI.inventory` hold the same
`create`, `update` and `delete` code; they differ in the storage key, the seed path and the
message of the not-found error. -/

/-- The entity types served by the mock service. -/
inductive Kind where
  | books
  | authors
  | stores
  | inventory
deriving DecidableEq

/-- The first argument of `getData` and `saveData`. -/
def Kind.key : Kind → String
  | Kind.books => "books"
  | Kind.authors => "authors"
  | Kind.stores => "stores"
  | Kind.inventory => "inventory"

/-- The second argument of `getData`. -/
def Kind.defaultPath : Kind → String
  | Kind.books => "/data/books.json"
  | Kind.authors => "/data/authors.json"
  | Kind.stores => "/data/stores.json"
  | Kind.inventory => "/data/inventory.json"

/-- The message of the error raised when no record has the id. -/
def Kind.notFound : Kind → String
  | Kind.books => "Book not found"
  | Kind.authors => "Author not found"
  | Kind.stores => "Store not found"
  | Kind.inventory => "Inventory item not found"

/-- The storage slot of an entity type. -/
def Kind.slot (kind : Kind) : String := "library_" ++ kind.key

/-- The value of `items.findIndex(p)`; `none` is `-1`. -/
def findIndex (p : Entity → Bool) : Collection → Option Nat
  | [] => none
  | x :: xs => if p x then some 0 else (findIndex p xs).map (fun i => i + 1)

namespace mockAPI

/-- The operation `create` of an entity type. -/
def create (kind : Kind) (fetch : String → Seed) (data : Patch) (ls : Storage) :
    Except String (Envelope Entity) × Storage :=
  let r := getData fetch kind.key kind.defaultPath ls
  let newItem : Entity := ⟨generateId (some r.1), data.fields⟩
  let items := r.1 ++ [newItem]
  (apiResponse (some newItem) none, saveData kind.key items r.2)

/-- The operation `update` of an entity type. -/
def update (kind : Kind) (fetch : String → Seed) (id : Int) (updates : Patch)
    (ls : Storage) : Except String (Envelope Entity) × Storage :=
  let r := getData fetch kind.key kind.defaultPath ls
  match findIndex (fun b => b.id == id) r.1 with
  | none => (apiResponse none (some kind.notFound), r.2)
  | some index =>
    let items := r.1.modify (fun b => b.merge updates) index
    (apiResponse items[index]? none, saveData kind.key items r.2)

/-- The operation `delete` of an entity type. -/
def delete (kind : Kind) (fetch : String → Seed) (id : Int) (ls : Storage) :
    Except String (Envelope Ack) × Storage :=
  let r := getData fetch kind.key kind.defaultPath ls
  let filtered := r.1.filter (fun b => b.id != id)
  if filtered.length = r.1.length then
    (apiResponse none (some kind.notFound), r.2)
  else
    (apiResponse (some ⟨true⟩) none, saveData kind.key filtered r.2)

/-- The test `i.store_id === storeId && i.book_id === bookId` of an inventory item. -/
def inventory.matchesStoreAndBook (storeId bookId : Int) (i : Entity) : Bool :=
  i.fields.get "store_id" == some (Value.num storeId)
    && i.fields.get "book_id" == some (Value.num bookId)

/-- The operation `inventory.deleteByStoreAndBook`. -/
def inventory.deleteByStoreAndBook (fetch : String → Seed) (storeId bookId : Int)
    (ls : Storage) : Except String (Envelope Ack) × Storage :=
  let r := getData fetch "inventory" "/data/inventory.json" ls
  let filtered := r.1.filter (fun i => !(inventory.matchesStoreAndBook storeId bookId i))
  if filtered.length = r.1.length then
    (apiResponse none (some "Inventory item not found"), r.2)
  else
    (apiResponse (some ⟨true⟩) none, saveData "inventory" filtered r.2)

/-- The operations of the books object. -/
def books.create := mockAPI.create Kind.books
def books.update := mockAPI.update Kind.books
def books.delete := mockAPI.delete Kind.books

/-- The operations of the authors object. -/
def authors.create := mockAPI.create Kind.authors
def authors.update := mockAPI.update Kind.authors
def authors.delete := mockAPI.delete Kind.authors

/-- The operations of the stores object. -/
def stores.create := mockAPI.create Kind.stores
def stores.update := mockAPI.update Kind.stores
def stores.delete := mockAPI.delete Kind.stores

/-- The operations of the inventory object that it shares with the other three. -/
def inventory.create := mockAPI.create Kind.inventory
def inventory.update := mockAPI.update Kind.inventory
def inventory.delete := mockAPI.delete Kind.inventory

end mockAPI

/-! ## Sequences of calls -/

/-- The collection that the operations of an entity type read from a storage. -/
def current (kind : Kind) (fetch : String → Seed) (ls : Storage) : Collection :=
  (getData fetch kind.key kind.defaultPath ls).1

/-- A call of the mock service on one collection. -/
inductive Op where
  | create (data : Patch)
  | delete (id : Int)
deriving DecidableEq

/-- The storage that a call leaves behind. -/
def Op.after (kind : Kind) (fetch : String → Seed) (op : Op) (ls : Storage) : Storage :=
  match op with
  | Op.create data => (mockAPI.create kind fetch data ls).2
  | Op.delete id => (mockAPI.delete kind fetch id ls).2

/-- The id of the record that a call returns, when the call is a `create`. -/
def Op.assigned (kind : Kind) (fetch : String → Seed) (op : Op) (ls : Storage) :
    Option Int :=
  match op with
  | Op.create data =>
    match (mockAPI.create kind fetch data ls).1 with
    | Except.ok env => env.data.map Entity.id
    | Except.error _ => none
  | Op.delete _ => none

/-- The storage after a sequence of calls. -/
def runOps (kind : Kind) (fetch : String → Seed) : List Op → Storage → Storage
  | [], ls => ls
  | op :: rest, ls => runOps kind fetch rest (op.after kind fetch ls)

/-- The ids handed out by the creates of a sequence of calls, in call order. -/
def assignedIds (kind : Kind) (fetch : String → Seed) : List Op → Storage → List Int
  | [], _ => []
  | op :: rest, ls =>
    (op.assigned kind fetch ls).toList ++ assignedIds kind fetch rest (op.after kind fetch ls)

/-- Whether `id` is the id of a record of `c` and no record of `c` has a larger id. -/
def isMaxId (id : Int) (c : Collection) : Bool :=
  c.any (fun e => e.id == id) && c.all (fun e => decide (e.id ≤ id))

/-- Whether no `delete` of the sequence removes the record that has, at the time of the
call, the largest id of the collection. -/
def keepsMax (kind : Kind) (fetch : String → Seed) : List Op → Storage → Bool
  | [], _ => true
  | Op.create data :: rest, ls =>
    keepsMax kind fetch rest ((Op.create data).after kind fetch ls)
  | Op.delete id :: rest, ls =>
    !(isMaxId id (current kind fetch ls))
      && keepsMax kind fetch rest ((Op.delete id).after kind fetch ls)

/-- Whether the ids of a collection are safe integers with room for `room` more creates:
every id is above -2^53, every id plus `room` is below 2^53, and so is `room`. The sum of
such an id and 1 is exact in doubles. -/
def safeIds (room : Nat) (c : Collection) : Prop :=
  (room : Int) < 2 ^ 53 ∧ ∀ e ∈ c, -(2 ^ 53) < e.id ∧ e.id + room < 2 ^ 53

instance safeIds.decidable (room : Nat) (c : Collection) : Decidable (safeIds room c) := by
  unfold safeIds
  infer_instance

/-! ## Sample data -/

/-- Seed resources that are empty arrays. -/
def sampleFetch : String → Seed := fun _ => Seed.array []

/-- Two books. -/
def sampleBooks : Collection :=
  [⟨1, [("name", Value.str "Notes"), ("page_count", Value.num 50)]⟩,
   ⟨2, [("name", Value.str "Poems"), ("page_count", Value.num 80)]⟩]

/-- A storage whose books slot holds `sampleBooks`. -/
def sampleStorage : Storage :=
  fun k => if k = "library_books" then some sampleBooks else none

/-- Four inventory items; the first and the third have the same store and book. -/
def sampleInventory : Collection :=
  [⟨1, [("store_id", Value.num 1), ("book_id", Value.num 1)]⟩,
   ⟨2, [("store_id", Value.num 1), ("book_id", Value.num 2)]⟩,
   ⟨3, [("store_id", Value.num 1), ("book_id", Value.num 1)]⟩,
   ⟨4, [("store_id", Value.num 2), ("book_id", Value.num 1)]⟩]

/-- A storage whose inventory slot holds `sampleInventory`. -/
def sampleInventoryStorage : Storage :=
  fun k => if k = "library_inventory" then some sampleInventory else none

/-- An update object that carries an `id` key. -/
def sampleRenumber : Patch := ⟨some 2, []⟩

/-- A create, the delete of the record it made, and a second create. -/
def sampleOps : List Op :=
  [Op.create ⟨none, [("name", Value.str "Essays")]⟩, Op.delete 3,
   Op.create ⟨none, [("name", Value.str "Letters")]⟩]

/-- A create, the delete of the record with id 1, and a second create. -/
def sampleKeepOps : List Op :=
  [Op.create ⟨none, [("name", Value.str "Essays")]⟩, Op.delete 1,
   Op.create ⟨none, [("name", Value.str "Letters")]⟩]

/-- An update object that renames a book. -/
def sampleRename : Patch := ⟨none, [("name", Value.str "Odes")]⟩

/-- A create object that carries an `id` key. -/
def sampleNewBook : Patch := ⟨some 7, [("name", Value.str "Essays")]⟩

/-- One book whose id is 2^53, the least positive integer whose successor no double holds. -/
def sampleLargeId : Collection := [⟨9007199254740992, [("name", Value.str "Last")]⟩]

/-- A storage whose books slot holds `sampleLargeId`. -/
def sampleLargeIdStorage : Storage :=
  fun k => if k = "library_books" then some sampleLargeId else none

/-- Two creates and no delete. -/
def sampleTwoCreates : List Op :=
  [Op.create ⟨none, [("name", Value.str "Essays")]⟩,
   Op.create ⟨none, [("name", Value.str "Letters")]⟩]

/-! ## Reads of the mock service -/

namespace mockAPI

/-- The operation `getAll` of an entity type. -/
def getAll (kind : Kind) (fetch : String → Seed) (ls : Storage) :
    Except String (Envelope Collection) × Storage :=
  let r := getData fetch kind.key kind.defaultPath ls
  (apiResponse (some r.1) none, r.2)

/-- The operation `getById`, which `books` and `stores` have. -/
def getById (kind : Kind) (fetch : String → Seed) (id : Int) (ls : Storage) :
    Except String (Envelope Entity) × Storage :=
  let r := getData fetch kind.key kind.defaultPath ls
  match r.1.find? (fun b => b.id == id) with
  | none => (apiResponse none (some kind.notFound), r.2)
  | some book => (apiResponse (some book) none, r.2)

/-- The operation `inventory.getByStore`. -/
def inventory.getByStore (fetch : String → Seed) (storeId : Int) (ls : Storage) :
    Except String (Envelope Collection) × Storage :=
  let r := getData fetch "inventory" "/data/inventory.json" ls
  let storeInventory :=
    r.1.filter (fun item => item.fields.get "store_id" == some (Value.num storeId))
  (apiResponse (some storeInventory) none, r.2)

end mockAPI

/-! ## Authentication

`btoa`, `atob`, `JSON.stringify` and `JSON.parse` are functions of the browser, not of the
repository; the operations take them as a parameter. -/

/-- A JSON value, as `JSON.parse` returns it. -/
inductive Json where
  | null
  | bool (b : Bool)
  | num (q : ℚ)
  | str (s : String)
  | arr (items : List Json)
  | obj (members : List (String × Json))

/-- The browser functions that the token code calls. `atob` and `parse` give `none` when
the browser function throws. `btoa` is only applied to the JSON text of an object of two
numbers, which is ASCII, so it does not throw. -/
structure Platform where
  stringify : Json → String
  btoa : String → String
  atob : String → Option String
  parse : String → Option Json

/-- The value of `JSON.parse(atob(token))`, `none` when one of the two throws. -/
def Platform.decode (P : Platform) (token : String) : Option Json :=
  match P.atob token with
  | none => none
  | some text => P.parse text

/-- The object `{ userId, timestamp }` that a token encodes. -/
def tokenPayload (userId timestamp : Int) : Json :=
  Json.obj [("userId", Json.num userId), ("timestamp", Json.num timestamp)]

/-- The value of `btoa(JSON.stringify({ userId, timestamp }))`. -/
def Platform.mint (P : Platform) (userId timestamp : Int) : String :=
  P.btoa (P.stringify (tokenPayload userId timestamp))

/-- The read `decoded.userId`: `none` when the read throws, which it does on `null`;
`some none` when the value is `undefined`. -/
def Json.userId : Json → Option (Option Json)
  | Json.null => none
  | Json.obj members => some (members.lookup "userId")
  | _ => some none

/-- The test `u.id === v` of a user id against a value read from a token. -/
def strictEqId (id : Int) : Option Json → Bool
  | some (Json.num q) => decide (q = (id : ℚ))
  | _ => false

/-- An entry of `MOCK_USERS`. -/
structure User where
  id : Int
  name : String
  email : String
  password : String
  role : String
deriving DecidableEq

/-- A user record without the `password` key. -/
structure UserInfo where
  id : Int
  name : String
  email : String
  role : String
deriving DecidableEq

/-- The rest `userWithoutPassword` of `const { password: _, ...userWithoutPassword } = user`. -/
def User.withoutPassword (user : User) : UserInfo :=
  ⟨user.id, user.name, user.email, user.role⟩

/-- The constant `MOCK_USERS`. -/
def MOCK_USERS : List User :=
  [⟨1, "Admin User", "admin@library.com", "admin123", "admin"⟩]

/-- The data `{ user, token }` of a successful login. -/
structure LoginData where
  user : UserInfo
  token : String
deriving DecidableEq

namespace mockAPI

/-- The operation `auth.login`; `now` is the value of `Date.now()`. -/
def auth.login (P : Platform) (now : Int) (email password : String) :
    Except String (Envelope LoginData) :=
  match MOCK_USERS.find? (fun u => u.email == email && u.password == password) with
  | none => apiResponse none (some "Invalid email or password")
  | some user =>
    let userWithoutPassword := user.withoutPassword
    let token := P.btoa (P.stringify (tokenPayload user.id now))
    apiResponse (some ⟨userWithoutPassword, token⟩) none

/-- The operation `auth.logout`. -/
def auth.logout : Except String (Envelope Ack) :=
  apiResponse (some ⟨true⟩) none

/-- The operation `auth.getCurrentUser`. The `catch` branch runs when `atob` or
`JSON.parse` throws and when the read of `userId` throws. -/
def auth.getCurrentUser (P : Platform) (token : String) :
    Except String (Envelope UserInfo) :=
  match P.decode token with
  | none => apiResponse none (some "Invalid token")
  | some decoded =>
    match decoded.userId with
    | none => apiResponse none (some "Invalid token")
    | some v =>
      match MOCK_USERS.find? (fun u => strictEqId u.id v) with
      | none => apiResponse none (some "Invalid token")
      | some user => apiResponse (some user.withoutPassword) none

end mockAPI

/-! ## The data context (`LibraryContext.jsx`)

The seed resources are reachable and the cached texts are the JSON of collections, so no
step of the startup load throws. -/

namespace LibraryContext

/-- The state of `LibraryProvider`. -/
structure LibraryState where
  books : Collection
  authors : Collection
  stores : Collection
  inventory : Collection
  isLoading : Bool
  error : Option String
deriving DecidableEq

/-- The initial values of the `useState` calls. -/
def initialState : LibraryState := ⟨[], [], [], [], true, none⟩

/-- The value of `Array.isArray(data) ? data : [data]`. -/
def toArray : Seed → Collection
  | Seed.array c => c
  | Seed.single e => [e]

/-- What a run of `fetchData` leaves: the state, the storage and the paths it fetched. -/
structure Loaded where
  state : LibraryState
  storage : Storage
  fetched : List String

/-- The function `fetchData` of the startup effect. -/
def fetchData (fetch : String → Seed) (ls : Storage) : Loaded :=
  match ls "library_books", ls "library_authors", ls "library_stores",
      ls "library_inventory" with
  | some cachedBooks, some cachedAuthors, some cachedStores, some cachedInventory =>
    ⟨⟨cachedBooks, cachedAuthors, cachedStores, cachedInventory, false, none⟩, ls, []⟩
  | _, _, _, _ =>
    let booksArray := toArray (fetch "/data/books.json")
    let authorsArray := toArray (fetch "/data/authors.json")
    let storesArray := toArray (fetch "/data/stores.json")
    let inventoryArray := toArray (fetch "/data/inventory.json")
    ⟨⟨booksArray, authorsArray, storesArray, inventoryArray, false, none⟩,
     (((ls.setItem "library_books" booksArray).setItem "library_authors" authorsArray).setItem
        "library_stores" storesArray).setItem "library_inventory" inventoryArray,
     ["/data/books.json", "/data/authors.json", "/data/stores.json",
      "/data/inventory.json"]⟩

/-- The persistence effect of a collection:
`if (items.length > 0) localStorage.setItem(slot, JSON.stringify(items))`. -/
def persistEffect (kind : Kind) (items : Collection) (ls : Storage) : Storage :=
  if items.length > 0 then ls.setItem ("library_" ++ kind.key) items else ls

/-- The id `newId` that `addBook`, `addAuthor`, `addStore` and `addInventoryItem` compute
from the collection of the render: `items.length > 0 ? Math.max(...ids) + 1 : 1`, the sum
being a sum of doubles. -/
def newId (items : Collection) : Int :=
  match items with
  | [] => 1
  | b :: rest => toDouble (Math.max b.id (ids rest) + 1)

/-- The mutators `addBook`, `addAuthor`, `addStore` and `addInventoryItem`: `items` is the
collection of the render, `prev` the collection the state update is applied to. Returns
the new record and the new collection. -/
def addX (items : Collection) (item : Patch) (prev : Collection) : Entity × Collection :=
  let newItem : Entity := ⟨newId items, item.fields⟩
  (newItem, prev ++ [newItem])

/-- The mutators `updateBook`, `updateAuthor`, `updateStore` and `updateInventoryItem`. -/
def updateX (id : Int) (updates : Patch) (prev : Collection) : Collection :=
  prev.map (fun item => if item.id == id then item.merge updates else item)

/-- The mutators `deleteBook`, `deleteAuthor`, `deleteStore` and `deleteInventoryItem`. -/
def deleteX (id : Int) (prev : Collection) : Collection :=
  prev.filter (fun item => item.id != id)

/-- The four `add` mutators by name. -/
def addBook := addX
def addAuthor := addX
def addStore := addX
def addInventoryItem := addX

/-- The mutators of the books collection by name. -/
def updateBook := updateX
def deleteBook := deleteX

end LibraryContext

/-! ## More sample data -/

/-- Browser functions under which every token decodes to the payload of user 1 at time 5. -/
def samplePlatform : Platform :=
  ⟨fun _ => "payload", fun s => s, fun s => some s, fun _ => some (tokenPayload 1 5)⟩

/-- The user of `MOCK_USERS`. -/
def sampleAdmin : User := ⟨1, "Admin User", "admin@library.com", "admin123", "admin"⟩

/-- One book. -/
def sampleOneBook : Collection := [⟨1, [("name", Value.str "Notes")]⟩]

/-- A storage whose books slot holds `sampleOneBook`. -/
def sampleOneBookStorage : Storage :=
  fun k => if k = "library_books" then some sampleOneBook else none

/-- A storage with no slot. -/
def emptyStorage : Storage := fun _ => none

/-- An inventory item of store 1. -/
def sampleItem : Patch := ⟨none, [("store_id", Value.num 1), ("book_id", Value.num 1)]⟩

/-- A storage that holds a collection in each of the four slots. -/
def sampleFullStorage : Storage :=
  fun k =>
    if k = "library_books" then some sampleBooks
    else if k = "library_authors" then some []
    else if k = "library_stores" then some []
    else if k = "library_inventory" then some sampleInventory
    else none

/-! ## The mutators on the state of the data context -/

namespace LibraryContext

/-- The state update `setBooks(f)`. -/
def setBooks (f : Collection → Collection) (s : LibraryState) : LibraryState :=
  ⟨f s.books, s.authors, s.stores, s.inventory, s.isLoading, s.error⟩

/-- The state update `setStores(f)`. -/
def setStores (f : Collection → Collection) (s : LibraryState) : LibraryState :=
  ⟨s.books, s.authors, f s.stores, s.inventory, s.isLoading, s.error⟩

/-- The mutator `deleteStore` on a collection. -/
def deleteStore := deleteX

/-- The call `deleteBook(id)`: `setBooks(prev => prev.filter(book => book.id !== id))`. -/
def callDeleteBook (id : Int) (s : LibraryState) : LibraryState :=
  setBooks (deleteBook id) s

/-- The call `deleteStore(id)`: `setStores(prev => prev.filter(store => store.id !== id))`. -/
def callDeleteStore (id : Int) (s : LibraryState) : LibraryState :=
  setStores (deleteStore id) s

end LibraryContext

/-! ## The views of `Home.jsx` and `BrowseBooks.jsx` -/

/-- Whether a value read from a record is truthy; `none` is `undefined`. -/
def truthy : Option Value → Bool
  | none => false
  | some Value.null => false
  | some (Value.bool b) => b
  | some (Value.num q) => decide (q ≠ 0)
  | some (Value.str s) => decide (s ≠ "")

/-- The text that a template literal puts for a value; `numText` is the text of a number,
which the browser computes. -/
def templateText (numText : ℚ → String) : Option Value → String
  | none => "undefined"
  | some Value.null => "null"
  | some (Value.bool true) => "true"
  | some (Value.bool false) => "false"
  | some (Value.num q) => numText q
  | some (Value.str s) => s

/-- The two operations on numbers that the stores view uses: the sum `a + b` and the
quotient `a / b` of two JavaScript numbers. A number is a double, which is a rational; in
the browser each operation gives the double nearest to the exact result. `none` is a
result outside the numbers of the model (an infinity, NaN). -/
structure Arith where
  add : ℚ → ℚ → Option ℚ
  div : ℚ → ℚ → Option ℚ

/-- Exact arithmetic: no rounding, and no quotient by 0. -/
def Arith.exact : Arith :=
  ⟨fun a b => some (a + b), fun a b => if b = 0 then none else some (a / b)⟩

/-- The double nearest to an integer, when it is finite: below 2^1024 in magnitude, which
is to say that at most 971 halvings bring the magnitude below 2^53. -/
def finiteDouble (n : Int) : Option ℚ :=
  if spacingExp 1024 (toDouble n).natAbs ≤ 971 then some ((toDouble n : Int) : ℚ) else none

/-- The arithmetic of doubles, on integers: the sum of two integers is the double nearest
to their exact sum, and the quotient of an integer by a non-zero integer that divides it
is the double nearest to the exact quotient. Other operands are outside this model of
the operations (`none`). -/
def Arith.integerDoubles : Arith :=
  ⟨fun a b => if a.den = 1 ∧ b.den = 1 then finiteDouble (a.num + b.num) else none,
   fun a b =>
     if a.den = 1 ∧ b.den = 1 ∧ b.num ≠ 0 ∧ a.num % b.num = 0
     then finiteDouble (a.num / b.num) else none⟩

/-- The sum of a list of numbers as `reduce((sum, x) => sum + x, 0)` computes it: from 0,
from left to right, each step a sum of JavaScript numbers. -/
def Arith.sum (A : Arith) (prices : List ℚ) : Option ℚ :=
  prices.foldl (fun s q => s.bind (fun t => A.add t q)) (some 0)

namespace Home

/-- An entry `{ name, price }` of the stores of a book row. -/
structure StorePrice where
  name : Value
  price : Option Value
deriving DecidableEq

/-- A row `{ id, title, author, stores }` of the books view. -/
structure BookRow where
  id : Int
  title : Option Value
  author : String
  stores : List StorePrice
deriving DecidableEq

/-- The value of `store?.name || 'Unknown Store'`. -/
def storeName (store : Option Entity) : Value :=
  match store with
  | none => Value.str "Unknown Store"
  | some s =>
    match s.fields.get "name" with
    | none => Value.str "Unknown Store"
    | some v => if truthy (some v) then v else Value.str "Unknown Store"

/-- The view `booksWithStores`. -/
def booksWithStores (numText : ℚ → String) (books authors stores inventory : Collection) :
    List BookRow :=
  books.map (fun book =>
    let bookInventory :=
      inventory.filter (fun item => item.fields.get "book_id" == some (Value.num book.id))
    let bookStores := bookInventory.map (fun item =>
      let store := stores.find? (fun s => some (Value.num s.id) == item.fields.get "store_id")
      (⟨storeName store, item.fields.get "price"⟩ : StorePrice))
    let author :=
      authors.find? (fun a => some (Value.num a.id) == book.fields.get "author_id")
    (⟨book.id, book.fields.get "name",
      match author with
      | some a =>
        templateText numText (a.fields.get "first_name") ++ " "
          ++ templateText numText (a.fields.get "last_name")
      | none => "Unknown Author",
      bookStores⟩ : BookRow))

/-- A row `{ id, name, noOfBooks, averagePrice }` of the stores view. A price that is
`none` is a value outside the numbers of the model. -/
structure StoreMetrics where
  id : Int
  name : Option Value
  noOfBooks : Nat
  averagePrice : Option ℚ
deriving DecidableEq

/-- The step `sum + item.price` of the reduce, a sum of JavaScript numbers; `none` when
the price of the item is not a number. -/
def addPrice (A : Arith) (sum : Option ℚ) (item : Entity) : Option ℚ :=
  match sum, item.fields.get "price" with
  | some t, some (Value.num q) => A.add t q
  | _, _ => none

/-- The view `storesWithMetrics`; `totalPrice / noOfBooks` is a quotient of JavaScript
numbers. -/
def storesWithMetrics (A : Arith) (stores inventory : Collection) : List StoreMetrics :=
  (stores.take 5).map (fun store =>
    let storeInventory :=
      inventory.filter (fun item => item.fields.get "store_id" == some (Value.num store.id))
    let noOfBooks := storeInventory.length
    let totalPrice := storeInventory.foldl (addPrice A) (some 0)
    let averagePrice :=
      if noOfBooks > 0 then totalPrice.bind (fun t => A.div t (noOfBooks : ℚ)) else some 0
    (⟨store.id, store.fields.get "name", noOfBooks, averagePrice⟩ : StoreMetrics))

end Home

/-- The view `booksWithStores` of `BrowseBooks.jsx`, which holds the same code. -/
def BrowseBooks.booksWithStores := Home.booksWithStores

/-! ## Sample data of the views -/

/-- One store. -/
def sampleStores : Collection := [⟨1, [("name", Value.str "Central")]⟩]

/-- Two inventory items of store 1, with the prices 2^53 and 1. -/
def sampleLargePrices : Collection :=
  [⟨1, [("store_id", Value.num 1), ("book_id", Value.num 1),
        ("price", Value.num 9007199254740992)]⟩,
   ⟨2, [("store_id", Value.num 1), ("book_id", Value.num 2), ("price", Value.num 1)]⟩]

/-- A store whose name is the empty string. -/
def sampleNamelessStores : Collection := [⟨1, [("name", Value.str "")]⟩]

/-- One inventory item of store 1 and book 1. -/
def sampleOneItem : Collection :=
  [⟨1, [("store_id", Value.num 1), ("book_id", Value.num 1), ("price", Value.num 5)]⟩]

/-! ## The auth context (`AuthContext.jsx`)

The facade `api` is the mock service, which is what it is in the mode 'mock'. -/

namespace AuthContext

/-- The state of `AuthProvider`. -/
structure AuthState where
  user : Option UserInfo
  isAuthenticated : Bool
  isLoading : Bool
  error : Option String
deriving DecidableEq

/-- The object `{ success, error }` that `login` of the context returns. -/
structure LoginResult where
  success : Bool
  error : Option String
deriving DecidableEq

/-- The function `login` of the context: `s` is the state and `token` the slot
`auth_token` before the call; it returns its result, the state and the slot after it. -/
def login (P : Platform) (now : Int) (email password : String) (s : AuthState)
    (token : Option String) : LoginResult × AuthState × Option String :=
  match mockAPI.auth.login P now email password with
  | Except.ok response =>
    match response.success, response.data with
    | true, some data =>
      (⟨true, none⟩, ⟨some data.user, true, false, none⟩, some data.token)
    | _, _ =>
      (⟨false, some "Login failed"⟩, ⟨s.user, s.isAuthenticated, false, some "Login failed"⟩,
       token)
  | Except.error message =>
    let errorMessage := if message ≠ "" then message else "Login failed"
    (⟨false, some errorMessage⟩, ⟨s.user, s.isAuthenticated, false, some errorMessage⟩, token)

/-- The state after the session check found no user, with no user signed in. -/
def anonymous : AuthState := ⟨none, false, false, none⟩

end AuthContext

/-! ## Texts

A JavaScript string of a form is the list of its characters. -/

/-- A JavaScript string. -/
abbrev Text := List Char

/-- The white space and line terminators that `trim` removes and `\s` matches. -/
def isWhiteSpace (c : Char) : Bool :=
  c.toNat = 9 || c.toNat = 10 || c.toNat = 11 || c.toNat = 12 || c.toNat = 13
    || c.toNat = 32 || c.toNat = 160 || c.toNat = 5760
    || (8192 ≤ c.toNat && c.toNat ≤ 8202) || c.toNat = 8232 || c.toNat = 8233
    || c.toNat = 8239 || c.toNat = 8287 || c.toNat = 12288 || c.toNat = 65279

/-- The characters that `\d` matches: the ten ASCII digits. -/
def isDigit (c : Char) : Bool := 48 ≤ c.toNat && c.toNat ≤ 57

/-- The characters that `\w` matches: ASCII letters, digits and the underscore. -/
def isWord (c : Char) : Bool :=
  isDigit c || (65 ≤ c.toNat && c.toNat ≤ 90) || (97 ≤ c.toNat && c.toNat ≤ 122)
    || c.toNat = 95

/-- The method `trim`. -/
def trimChars (cs : Text) : Text :=
  ((cs.dropWhile isWhiteSpace).reverse.dropWhile isWhiteSpace).reverse

/-- The method `split(',')`. -/
def splitComma : Text → List Text
  | [] => [[]]
  | c :: rest =>
    if c = ',' then [] :: splitComma rest
    else
      match splitComma rest with
      | [] => [[c]]
      | part :: parts => (c :: part) :: parts

/-- The number that a run of decimal digits writes. -/
def natOfDigits (ds : Text) : Nat :=
  ds.foldl (fun n c => 10 * n + (c.toNat - 48)) 0

/-! ## Numbers of texts

The number that a text writes is the double nearest to the exact value of the text. A
finite value is kept exact where that double is finite and not 0, and stands for it: the
two have the same sign, which is all that the test `x <= 0` of the form reads. A magnitude
that rounds to 0 is 0, and a magnitude that rounds to an infinity is that infinity. -/

/-- A JavaScript number as far as the forms need it. -/
inductive JsNumber where
  | nan
  | inf (negative : Bool)
  | fin (q : ℚ)
deriving DecidableEq

/-- The test `x <= 0` of a number. -/
def JsNumber.leZero : JsNumber → Bool
  | JsNumber.nan => false
  | JsNumber.inf negative => negative
  | JsNumber.fin q => decide (q ≤ 0)

/-- The number `-x`. -/
def JsNumber.neg : JsNumber → JsNumber
  | JsNumber.nan => JsNumber.nan
  | JsNumber.inf negative => JsNumber.inf (!negative)
  | JsNumber.fin q => JsNumber.fin (-q)

/-- The number for an exact value: 0 for a magnitude up to 2^-1075, half of the least
positive double, which rounds to 0; an infinity for a magnitude from 2^1024 - 2^970 on,
half a spacing above the largest double, which rounds to an infinity; the value itself
otherwise. -/
def JsNumber.ofExact (q : ℚ) : JsNumber :=
  if |q| ≤ 1 / 2 ^ 1075 then JsNumber.fin 0
  else if 2 ^ 1024 - 2 ^ 970 ≤ |q| then JsNumber.inf (decide (q < 0))
  else JsNumber.fin q

/-- The value of a digit of a radix up to 16, when the character is one. -/
def digitValue (radix : Nat) (c : Char) : Option Nat :=
  let v : Option Nat :=
    if isDigit c then some (c.toNat - 48)
    else if 97 ≤ c.toNat && c.toNat ≤ 102 then some (c.toNat - 87)
    else if 65 ≤ c.toNat && c.toNat ≤ 70 then some (c.toNat - 55)
    else none
  match v with
  | some d => if d < radix then some d else none
  | none => none

/-- The number that a text of digits of a radix writes; `none` when the text is empty
or holds another character. -/
def natOfRadix (radix : Nat) (cs : Text) : Option Nat :=
  if cs = [] then none
  else cs.foldl (fun acc c =>
    match acc, digitValue radix c with
    | some n, some d => some (radix * n + d)
    | _, _ => none) (some 0)

/-- The value of a `StrUnsignedDecimalLiteral`: `Infinity`, or digits with an optional
fraction and an optional exponent, with a digit before or after the point. -/
def unsignedDecimal (cs : Text) : JsNumber :=
  if cs = "Infinity".toList then JsNumber.inf false
  else
    let intDigits := cs.takeWhile isDigit
    let afterInt := cs.dropWhile isDigit
    let hasDot := afterInt.head? == some '.'
    let fracDigits := if hasDot then afterInt.tail.takeWhile isDigit else []
    let afterFrac := if hasDot then afterInt.tail.dropWhile isDigit else afterInt
    if intDigits = [] && fracDigits = [] then JsNumber.nan
    else
      let mantissa : ℚ :=
        (natOfDigits intDigits : ℚ) + (natOfDigits fracDigits : ℚ) / 10 ^ fracDigits.length
      match afterFrac with
      | [] => JsNumber.ofExact mantissa
      | e :: expo =>
        if e = 'e' || e = 'E' then
          let negative := expo.head? == some '-'
          let digits :=
            if expo.head? == some '-' || expo.head? == some '+' then expo.tail else expo
          if digits ≠ [] && digits.all isDigit then
            JsNumber.ofExact (if negative then mantissa / 10 ^ natOfDigits digits
                              else mantissa * 10 ^ natOfDigits digits)
          else JsNumber.nan
        else JsNumber.nan

/-- The number of a text (`ToNumber` of a string), which the comparison `text <= 0`
takes. -/
def toNumber (text : Text) : JsNumber :=
  match trimChars text with
  | [] => JsNumber.fin 0
  | '0' :: 'x' :: r | '0' :: 'X' :: r =>
    match natOfRadix 16 r with
    | some n => JsNumber.ofExact n
    | none => JsNumber.nan
  | '0' :: 'o' :: r | '0' :: 'O' :: r =>
    match natOfRadix 8 r with
    | some n => JsNumber.ofExact n
    | none => JsNumber.nan
  | '0' :: 'b' :: r | '0' :: 'B' :: r =>
    match natOfRadix 2 r with
    | some n => JsNumber.ofExact n
    | none => JsNumber.nan
  | '-' :: r => (unsignedDecimal r).neg
  | '+' :: r => unsignedDecimal r
  | t => unsignedDecimal t

/-- The digits of `parseInt` after the sign: hexadecimal after `0x`, decimal otherwise. -/
def parseIntDigits (cs : Text) : Option Nat :=
  match cs with
  | '0' :: 'x' :: r | '0' :: 'X' :: r =>
    natOfRadix 16 (r.takeWhile (fun c => (digitValue 16 c).isSome))
  | r => natOfRadix 10 (r.takeWhile isDigit)

/-- The function `parseInt` on a text, with no radix; `none` is `NaN`. The result is the
double nearest to the integer that the digits write, for digits that write an integer
below 2^1024. -/
def parseInt (text : Text) : Option Int :=
  match text.dropWhile isWhiteSpace with
  | '-' :: r => (parseIntDigits r).map (fun n => toDouble (-(n : Int)))
  | '+' :: r => (parseIntDigits r).map (fun n => toDouble (n : Int))
  | r => (parseIntDigits r).map (fun n => toDouble (n : Int))

/-! ## The add-book form (`Books.jsx`) -/

namespace Books

/-- The state `newBook` of the form: the texts of the three fields. -/
structure BookForm where
  author_id : Text
  name : Text
  page_count : Text
deriving DecidableEq

/-- The object `newErrors`. -/
structure BookErrors where
  name : Option String
  author_id : Option String
  page_count : Option String
deriving DecidableEq

/-- The object that `handleAddNew` hands to `addBook`; `none` in a number is `NaN`. -/
structure NewBook where
  author_id : Option Int
  name : Text
  page_count : Option Int
deriving DecidableEq

/-- The object `newErrors` that `validateBook` builds. -/
def newErrors (newBook : BookForm) : BookErrors :=
  ⟨if trimChars newBook.name = [] then some "Book name is required" else none,
   if newBook.author_id = [] then some "Please select an author" else none,
   if newBook.page_count = [] || (toNumber newBook.page_count).leZero then
     some "Page count must be greater than 0"
   else none⟩

/-- The function `validateBook`: whether `newErrors` has no key. -/
def validateBook (newBook : BookForm) : Bool :=
  (newErrors newBook).name.isNone && (newErrors newBook).author_id.isNone
    && (newErrors newBook).page_count.isNone

/-- The function `handleAddNew`: the argument of the call of `addBook`, `none` when
`addBook` is not called. -/
def handleAddNew (newBook : BookForm) : Option NewBook :=
  if validateBook newBook then
    some ⟨parseInt newBook.author_id, newBook.name, parseInt newBook.page_count⟩
  else none

end Books

/-- The add-book form with the page count 0.5. -/
def sampleHalfPage : Books.BookForm := ⟨"1".toList, "Notes".toList, "0.5".toList⟩

/-! ## The add-store form (`Stores.jsx`) -/

namespace Stores

/-- The match of `\d{5}` at the start of a text: the five digits. -/
def matchDigits5 (cs : Text) : Option Text :=
  if (cs.take 5).length = 5 && (cs.take 5).all isDigit then some (cs.take 5) else none

/-- The match of `\s+(\d{5})` at the start of a text, longest run of white space
first: the five digits. -/
def matchSpaces : Text → Option Text
  | [] => none
  | c :: rest =>
    if isWhiteSpace c then
      match matchSpaces rest with
      | some zip => some zip
      | none => matchDigits5 rest
    else none

/-- The match of `(\w+)\s+(\d{5})` at the start of a text, longest word first: the
word and the five digits. -/
def matchWord : Text → Option (Text × Text)
  | [] => none
  | c :: rest =>
    if isWord c then
      match matchWord rest with
      | some (word, zip) => some (c :: word, zip)
      | none => (matchSpaces rest).map (fun zip => ([c], zip))
    else none

/-- The value of `lastPart.match(/(\w+)\s+(\d{5})/)`: the two groups of the leftmost
match, `none` when there is no match. -/
def stateZipMatch : Text → Option (Text × Text)
  | [] => none
  | c :: rest =>
    match matchWord (c :: rest) with
    | some groups => some groups
    | none => stateZipMatch rest

/-- The object `{ address_1, address_2, city, state, zip }`. -/
structure Address where
  address_1 : Text
  address_2 : Text
  city : Text
  state : Text
  zip : Text
deriving DecidableEq

/-- The array `address.split(',').map((part) => part.trim())`. -/
def addressParts (address : Text) : List Text :=
  (splitComma address).map trimChars

/-- The function `parseAddress`. -/
def parseAddress (address : Text) : Address :=
  if address = [] || trimChars address = [] then ⟨[], [], [], [], []⟩
  else
    let parts := addressParts address
    if parts.length < 3 then ⟨address, [], [], [], []⟩
    else
      let lastPart := trimChars (parts.getD (parts.length - 1) [])
      let stateZip : Text × Text :=
        match stateZipMatch lastPart with
        | some (state, zip) => (state, zip)
        | none => (lastPart, [])
      let city := parts.getD (parts.length - 2) []
      let address_1 := parts.getD 0 []
      let address_2 := if parts.length > 3 then parts.getD 1 [] else []
      ⟨address_1, address_2, city, stateZip.1, stateZip.2⟩

/-- The state `newStore` of the form. -/
structure StoreForm where
  name : Text
  address : Text
deriving DecidableEq

/-- The object `newErrors` of the store form. -/
structure StoreErrors where
  name : Option String
  address : Option String
deriving DecidableEq

/-- The object `newErrors` that `validateForm` builds. -/
def newErrors (newStore : StoreForm) : StoreErrors :=
  ⟨if trimChars newStore.name = [] then some "Store name is required" else none,
   if trimChars newStore.address = [] then some "Address is required"
   else
     if (parseAddress newStore.address).city = [] || (parseAddress newStore.address).state = []
         || (parseAddress newStore.address).zip = [] then
       some "Address must include city, state, and zip (e.g., \"123 Main St, Athens, GA 30605\")"
     else none⟩

/-- The function `validateForm`: whether `newErrors` has no key. -/
def validateForm (newStore : StoreForm) : Bool :=
  (newErrors newStore).name.isNone && (newErrors newStore).address.isNone

/-- The object that `handleAddNew` hands to `addStore`. -/
structure NewStore where
  name : Text
  address_1 : Text
  address_2 : Text
  city : Text
  state : Text
  zip : Text
deriving DecidableEq

/-- The function `handleAddNew`: the argument of the call of `addStore`, `none` when
`addStore` is not called. -/
def handleAddNew (newStore : StoreForm) : Option NewStore :=
  if validateForm newStore then
    some ⟨newStore.name, (parseAddress newStore.address).address_1,
      (parseAddress newStore.address).address_2, (parseAddress newStore.address).city,
      (parseAddress newStore.address).state, (parseAddress newStore.address).zip⟩
  else none

/-- The address fields of a store of the table; `address_2` is `none` when the store
has none. -/
structure StoreAddress where
  address_1 : Text
  address_2 : Option Text
  city : Text
  state : Text
  zip : Text
deriving DecidableEq

/-- The text `full_address` that `filteredStores` builds for a store. -/
def fullAddress (store : StoreAddress) : Text :=
  store.address_1
    ++ (match store.address_2 with
        | some a2 => if a2 ≠ [] then ", ".toList ++ a2 else []
        | none => [])
    ++ ", ".toList ++ store.city ++ ", ".toList ++ store.state ++ " ".toList ++ store.zip

end Stores

/-- A text holds a word, white space after it and five digits after that: what the
pattern of `parseAddress` looks for. -/
def containsStateZip (t : Text) : Prop :=
  ∃ pre word sp digits post, t = pre ++ word ++ sp ++ digits ++ post
    ∧ word ≠ [] ∧ word.all isWord = true ∧ sp ≠ [] ∧ sp.all isWhiteSpace = true
    ∧ digits.length = 5 ∧ digits.all isDigit = true

/-- The add-store form of the example of the error message. -/
def sampleStoreForm : Stores.StoreForm :=
  ⟨"Shop A".toList, "123 Main St, Athens, GA 30605".toList⟩

/-- A store with a second address line. -/
def sampleStoreAddress : Stores.StoreAddress :=
  ⟨"123 Main St".toList, some "Suite 5".toList, "Athens".toList, "GA".toList,
   "30605".toList⟩

/-! ## Lemmas on the largest id -/

theorem mathMax_ge (xs : List Int) (x : Int) :
    x ≤ Math.max x xs ∧ ∀ y ∈ xs, y ≤ Math.max x xs := by
  unfold Math.max
  induction xs generalizing x with
  | nil => simp
  | cons a as ih =>
    simp only [List.foldl_cons, List.mem_cons]
    obtain ⟨h1, h2⟩ := ih (Max.max x a)
    refine ⟨le_trans (le_max_left x a) h1, ?_⟩
    rintro y (rfl | hy)
    · exact le_trans (le_max_right x y) h1
    · exact h2 y hy

theorem mathMax_mem (xs : List Int) (x : Int) : Math.max x xs ∈ x :: xs := by
  unfold Math.max
  induction xs generalizing x with
  | nil => simp
  | cons a as ih =>
    simp only [List.foldl_cons]
    have h := ih (Max.max x a)
    rcases List.mem_cons.mp h with h | h
    · rcases max_choice x a with hx | ha
      · rw [h, hx]; simp
      · rw [h, ha]; simp
    · simp [h]

theorem spacingExp_small (fuel a : Nat) (h : a < 2 ^ 53) : spacingExp fuel a = 0 := by
  cases fuel with
  | zero => rfl
  | succ n => rw [spacingExp, if_pos h]

theorem roundNat_small (a : Nat) (h : a < 2 ^ 53) : roundNat a = a := by
  simp [roundNat, spacingExp_small _ _ h, Nat.mod_one]

theorem roundNat_pow53 : roundNat 9007199254740992 = 9007199254740992 := by decide

/-- An integer from -2^53 to 2^53 is a double: rounding leaves it as it is. -/
theorem toDouble_small (n : Int) (h1 : -(2 ^ 53) ≤ n) (h2 : n ≤ 2 ^ 53) :
    toDouble n = n := by
  have hcases : n.natAbs < 2 ^ 53 ∨ n.natAbs = 9007199254740992 := by omega
  have hr : roundNat n.natAbs = n.natAbs := by
    rcases hcases with h | h
    · exact roundNat_small _ h
    · rw [h]; exact roundNat_pow53
  unfold toDouble
  rw [hr]
  split <;> omega

/-- On a non-empty collection `generateId` is the double nearest to one more than the id
of some record that no other record exceeds. -/
theorem generateId_cons (e : Entity) (rest : Collection) :
    ∃ m ∈ e :: rest, generateId (some (e :: rest)) = toDouble (m.id + 1)
      ∧ ∀ x ∈ e :: rest, x.id ≤ m.id := by
  have hmem := mathMax_mem (ids rest) e.id
  have hge := mathMax_ge (ids rest) e.id
  have hgen : generateId (some (e :: rest)) = toDouble (Math.max e.id (ids rest) + 1) := by
    simp [generateId, ids]
  have : Math.max e.id (ids rest) ∈ ids (e :: rest) := by simpa [ids] using hmem
  obtain ⟨m, hm, hmid⟩ := List.mem_map.mp this
  refine ⟨m, hm, by rw [hgen, hmid], ?_⟩
  intro x hx
  rw [hmid]
  rcases List.mem_cons.mp hx with rfl | hx
  · exact hge.1
  · exact hge.2 x.id (List.mem_map.mpr ⟨x, hx, rfl⟩)

/-- On a non-empty collection of safe ids the sum is exact. -/
theorem generateId_cons_safe (e : Entity) (rest : Collection)
    (h : safeIds 0 (e :: rest)) :
    ∃ m ∈ e :: rest, generateId (some (e :: rest)) = m.id + 1
      ∧ ∀ x ∈ e :: rest, x.id ≤ m.id := by
  obtain ⟨m, hm, hgen, hle⟩ := generateId_cons e rest
  refine ⟨m, hm, ?_, hle⟩
  have hb := h.2 m hm
  rw [hgen]
  apply toDouble_small <;> omega

theorem safeIds_zero (room : Nat) (c : Collection) (h : safeIds room c) : safeIds 0 c := by
  refine ⟨by norm_num, ?_⟩
  intro e he
  have := h.2 e he
  omega

/-- On safe ids `generateId` exceeds every id of the collection, and leaves the room that
the ids leave. -/
theorem generateId_gt (room : Nat) (c : Collection) (h : safeIds room c) :
    (∀ x ∈ c, x.id < generateId (some c))
      ∧ -(2 ^ 53) < generateId (some c) ∧ generateId (some c) + room ≤ 2 ^ 53 := by
  cases c with
  | nil =>
    have := h.1
    refine ⟨by simp, by simp [generateId, ids], ?_⟩
    simp only [generateId, ids, List.map_nil]
    omega
  | cons e rest =>
    obtain ⟨m, hm, hgen, hle⟩ := generateId_cons_safe e rest (safeIds_zero room _ h)
    have hb := h.2 m hm
    refine ⟨?_, by omega, by omega⟩
    intro x hx
    have := hle x hx
    omega

theorem idGenerator_generateId_eq (items : Option Collection) :
    idGenerator.generateId items = generateId items := rfl

/-! ## Lemmas on storage and responses -/

theorem getData_stored (fetch : String → Seed) (key path : String) (ls : Storage)
    (c : Collection) (h : ls ("library_" ++ key) = some c) :
    getData fetch key path ls = (c, ls) := by
  simp [getData, h]

theorem getData_slot (fetch : String → Seed) (key path : String) (ls : Storage) :
    (getData fetch key path ls).2 ("library_" ++ key) = some (getData fetch key path ls).1 := by
  unfold getData
  cases h : ls ("library_" ++ key) with
  | some c => simpa using h
  | none => simp [Storage.setItem]

theorem current_stored (kind : Kind) (fetch : String → Seed) (ls : Storage) (c : Collection)
    (h : ls kind.slot = some c) : current kind fetch ls = c := by
  unfold current
  rw [getData_stored fetch kind.key kind.defaultPath ls c h]

theorem current_saveData (kind : Kind) (fetch : String → Seed) (ls : Storage)
    (c : Collection) : current kind fetch (saveData kind.key c ls) = c := by
  apply current_stored
  simp [saveData, Storage.setItem, Kind.slot]

theorem current_getData (kind : Kind) (fetch : String → Seed) (ls : Storage) :
    current kind fetch (getData fetch kind.key kind.defaultPath ls).2 = current kind fetch ls := by
  apply current_stored
  exact getData_slot fetch kind.key kind.defaultPath ls

theorem apiResponse_ok {α : Type} (d : Option α) :
    apiResponse d none = Except.ok ⟨d, true⟩ := rfl

theorem apiResponse_notFound {α : Type} (kind : Kind) (d : Option α) :
    apiResponse d (some kind.notFound) = Except.error kind.notFound := by
  cases kind <;> simp [apiResponse, Kind.notFound]

theorem create_fst (kind : Kind) (fetch : String → Seed) (data : Patch) (ls : Storage) :
    (mockAPI.create kind fetch data ls).1
      = Except.ok ⟨some ⟨generateId (some (current kind fetch ls)), data.fields⟩, true⟩ := rfl

theorem current_create (kind : Kind) (fetch : String → Seed) (data : Patch) (ls : Storage) :
    current kind fetch (mockAPI.create kind fetch data ls).2
      = current kind fetch ls
          ++ [⟨generateId (some (current kind fetch ls)), data.fields⟩] := by
  simp only [mockAPI.create]
  rw [current_saveData]
  rfl

/-! ## Id assignment -/

/-- C1, the claim fails: on the one book with id 2^53 both copies of `generateId` return
2^53, the double nearest to 2^53 + 1, and not the largest id plus one. -/
theorem C1_sum_rounded_at_largest_id :
    ids sampleLargeId = [9007199254740992]
      ∧ generateId (some sampleLargeId) = 9007199254740992
      ∧ idGenerator.generateId (some sampleLargeId) = 9007199254740992
      ∧ generateId (some sampleLargeId) ≠ 9007199254740992 + 1 := by
  decide

/-- C1, as amended: `generateId` returns 1 on an absent and on an empty collection and
otherwise the double nearest to the largest id of the collection plus one, which is the
largest id plus one itself whenever that sum is an integer from -2^53 to 2^53, so for
every collection of safe ids (both the copy in `mockServer.js` and the one in
`idGenerator.js`), and `create` returns the new record with exactly this id, computed
from the collection it read. -/
theorem C1_generateId_max_plus_one (e : Entity) (rest : Collection) (kind : Kind)
    (fetch : String → Seed) (data : Patch) (ls : Storage) :
    generateId none = 1 ∧ generateId (some []) = 1
      ∧ (∃ m ∈ e :: rest, (∀ x ∈ e :: rest, x.id ≤ m.id)
          ∧ generateId (some (e :: rest)) = toDouble (m.id + 1)
          ∧ (-(2 ^ 53) ≤ m.id + 1 ∧ m.id + 1 ≤ 2 ^ 53 →
              generateId (some (e :: rest)) = m.id + 1))
      ∧ (safeIds 0 (e :: rest) →
          ∃ m ∈ e :: rest, (∀ x ∈ e :: rest, x.id ≤ m.id)
            ∧ generateId (some (e :: rest)) = m.id + 1)
      ∧ idGenerator.generateId none = 1 ∧ idGenerator.generateId (some []) = 1
      ∧ idGenerator.generateId (some (e :: rest)) = generateId (some (e :: rest))
      ∧ (mockAPI.create kind fetch data ls).1
          = Except.ok ⟨some ⟨generateId (some (current kind fetch ls)), data.fields⟩, true⟩ := by
  refine ⟨rfl, rfl, ?_, ?_, rfl, rfl, rfl, rfl⟩
  · obtain ⟨m, hm, hgen, hle⟩ := generateId_cons e rest
    refine ⟨m, hm, hle, hgen, ?_⟩
    intro hb
    rw [hgen]
    exact toDouble_small _ hb.1 hb.2
  · intro hsafe
    obtain ⟨m, hm, hgen, hle⟩ := generateId_cons_safe e rest hsafe
    exact ⟨m, hm, hle, hgen⟩

/-- C2, the code at the failing input, and below it: on the stored book with id 2^53,
`generateId`, which its documentation in `idGenerator.js` says returns a new unique id,
returns an id of the collection, and `create` returns a record with the id 2^53 again and
stores two records with that id; on every collection of safe ids the id of the record
that `create` returns is strictly greater than, hence different from, the id of every
record of the collection it read (gaps left by deletions included). -/
theorem C2_created_id_repeats_largest_id :
    (current Kind.books sampleFetch sampleLargeIdStorage = sampleLargeId
      ∧ idGenerator.generateId (some sampleLargeId) ∈ ids sampleLargeId
      ∧ generateId (some sampleLargeId) ∈ ids sampleLargeId
      ∧ (mockAPI.create Kind.books sampleFetch sampleRename sampleLargeIdStorage).1
          = Except.ok ⟨some ⟨9007199254740992, sampleRename.fields⟩, true⟩
      ∧ ids (current Kind.books sampleFetch
            (mockAPI.create Kind.books sampleFetch sampleRename sampleLargeIdStorage).2)
          = [9007199254740992, 9007199254740992])
      ∧ ∀ (kind : Kind) (fetch : String → Seed) (data : Patch) (ls : Storage),
          safeIds 0 (current kind fetch ls) →
          ∃ n : Entity, (mockAPI.create kind fetch data ls).1 = Except.ok ⟨some n, true⟩
            ∧ (∀ x ∈ current kind fetch ls, x.id < n.id)
            ∧ ∀ x ∈ current kind fetch ls, x.id ≠ n.id := by
  refine ⟨⟨by decide, by decide, by decide, ?_, by decide⟩, ?_⟩
  · have h : generateId (some (current Kind.books sampleFetch sampleLargeIdStorage))
        = 9007199254740992 := by decide
    rw [create_fst, h]
  · intro kind fetch data ls hsafe
    refine ⟨⟨generateId (some (current kind fetch ls)), data.fields⟩, rfl, ?_, ?_⟩
    · exact (generateId_gt 0 (current kind fetch ls) hsafe).1
    · intro x hx
      exact ne_of_lt ((generateId_gt 0 (current kind fetch ls) hsafe).1 x hx)

/-! ## Create, delete -/

theorem filter_ne_length_iff (c : Collection) (p : Entity → Bool) :
    (c.filter (fun b => !p b)).length = c.length ↔ ∀ e ∈ c, p e = false := by
  rw [List.filter_length_eq_length]
  constructor
  · intro h e he
    simpa using h e he
  · intro h e he
    simp [h e he]

theorem delete_absent (kind : Kind) (fetch : String → Seed) (id : Int) (ls : Storage)
    (h : ∀ e ∈ current kind fetch ls, e.id ≠ id) :
    mockAPI.delete kind fetch id ls
      = (Except.error kind.notFound, (getData fetch kind.key kind.defaultPath ls).2) := by
  have hlen : (List.filter (fun b => b.id != id) (current kind fetch ls)).length
      = (current kind fetch ls).length := by
    rw [List.filter_length_eq_length]
    intro e he
    simpa using h e he
  unfold current at hlen
  simp only [mockAPI.delete, hlen, if_true, apiResponse_notFound]

theorem delete_present (kind : Kind) (fetch : String → Seed) (id : Int) (ls : Storage)
    (h : ∃ e ∈ current kind fetch ls, e.id = id) :
    mockAPI.delete kind fetch id ls
      = (Except.ok ⟨some ⟨true⟩, true⟩,
         saveData kind.key ((current kind fetch ls).filter (fun b => b.id != id))
           (getData fetch kind.key kind.defaultPath ls).2) := by
  have hlen : (List.filter (fun b => b.id != id) (current kind fetch ls)).length
      ≠ (current kind fetch ls).length := by
    rw [Ne, List.filter_length_eq_length]
    intro hall
    obtain ⟨e, he, hid⟩ := h
    have := hall e he
    simp [hid] at this
  unfold current at hlen
  simp only [mockAPI.delete, hlen, if_false, apiResponse_ok]
  rfl

/-- In a collection with pairwise distinct ids, the filter of `delete` removes the one
record that has the id and nothing else. -/
theorem filter_id_split (c : Collection) (id : Int) (hnd : (ids c).Nodup)
    (h : ∃ e ∈ c, e.id = id) :
    ∃ l1 e l2, c = l1 ++ e :: l2 ∧ e.id = id
      ∧ c.filter (fun b => b.id != id) = l1 ++ l2 := by
  obtain ⟨e, he, hid⟩ := h
  obtain ⟨l1, l2, rfl⟩ := List.append_of_mem he
  refine ⟨l1, e, l2, rfl, hid, ?_⟩
  have hnd2 : (ids l1 ++ e.id :: ids l2).Nodup := by simpa [ids] using hnd
  have hnot1 : ∀ x ∈ l1, x.id ≠ id := by
    intro x hx hxe
    have h1 : e.id ∈ ids l1 := List.mem_map.mpr ⟨x, hx, by rw [hxe, hid]⟩
    have := (List.nodup_append.mp hnd2).2.2 h1
    simp at this
  have hnot2 : ∀ x ∈ l2, x.id ≠ id := by
    intro x hx hxe
    have h2 : e.id ∈ ids l2 := List.mem_map.mpr ⟨x, hx, by rw [hxe, hid]⟩
    have := (List.nodup_cons.mp (List.nodup_append.mp hnd2).2.1).1
    exact this h2
  have f1 : l1.filter (fun b => b.id != id) = l1 := by
    rw [List.filter_eq_self]
    intro x hx
    simpa using hnot1 x hx
  have f2 : l2.filter (fun b => b.id != id) = l2 := by
    rw [List.filter_eq_self]
    intro x hx
    simpa using hnot2 x hx
  simp [List.filter_append, List.filter_cons, f1, f2, hid]

/-- C5: on a stored collection `c`, `create(data)` returns the success envelope of the
new record, which is `data` with `id` set to `generateId(c)` whatever `id` key `data`
carries, and stores `c` followed by that one record; no other slot changes. -/
theorem C5_create_appends (kind : Kind) (fetch : String → Seed) (data : Patch)
    (ls : Storage) (c : Collection) (h : ls kind.slot = some c) :
    mockAPI.create kind fetch data ls
        = (Except.ok ⟨some ⟨generateId (some c), data.fields⟩, true⟩,
           ls.setItem kind.slot (c ++ [⟨generateId (some c), data.fields⟩]))
      ∧ (∀ v, mockAPI.create kind fetch ⟨v, data.fields⟩ ls
          = mockAPI.create kind fetch data ls)
      ∧ (mockAPI.create kind fetch data ls).2 kind.slot
          = some (c ++ [⟨generateId (some c), data.fields⟩])
      ∧ ∀ k, k ≠ kind.slot → (mockAPI.create kind fetch data ls).2 k = ls k := by
  have hg := getData_stored fetch kind.key kind.defaultPath ls c h
  have hc : mockAPI.create kind fetch data ls
        = (Except.ok ⟨some ⟨generateId (some c), data.fields⟩, true⟩,
           ls.setItem kind.slot (c ++ [⟨generateId (some c), data.fields⟩])) := by
    simp only [mockAPI.create, hg, apiResponse_ok, saveData, Kind.slot]
  refine ⟨hc, fun v => rfl, ?_, ?_⟩
  · rw [hc]; simp [Storage.setItem]
  · intro k hk
    rw [hc]; simp [Storage.setItem, hk]

/-- C8: on a stored collection `c` with pairwise distinct ids that holds a record with
the id, `delete(id)` succeeds and stores `c` without that one record: the other records
stay, in their order, and the length drops by exactly one. -/
theorem C8_delete_removes_one (kind : Kind) (fetch : String → Seed) (id : Int)
    (ls : Storage) (c : Collection) (h : ls kind.slot = some c) (hnd : (ids c).Nodup)
    (hin : ∃ e ∈ c, e.id = id) :
    ∃ l1 e l2, c = l1 ++ e :: l2 ∧ e.id = id
      ∧ mockAPI.delete kind fetch id ls
          = (Except.ok ⟨some ⟨true⟩, true⟩, ls.setItem kind.slot (l1 ++ l2))
      ∧ (l1 ++ l2).length + 1 = c.length
      ∧ (∀ x ∈ l1 ++ l2, x.id ≠ id)
      ∧ l1 ++ l2 = c.erase e := by
  obtain ⟨l1, e, l2, hc, hid, hf⟩ := filter_id_split c id hnd hin
  have hcur : current kind fetch ls = c := current_stored kind fetch ls c h
  have hg := getData_stored fetch kind.key kind.defaultPath ls c h
  have hdel := delete_present kind fetch id ls (by rw [hcur]; exact hin)
  rw [hcur, hf, hg] at hdel
  refine ⟨l1, e, l2, hc, hid, hdel, ?_, ?_, ?_⟩
  · rw [hc]
    simp only [List.length_append, List.length_cons]
    omega
  · intro x hx
    rw [← hf] at hx
    simpa using (List.mem_filter.mp hx).2
  · have hnot : e ∉ l1 := by
      intro he
      have hx : e ∈ l1 ++ l2 := List.mem_append_left l2 he
      rw [← hf] at hx
      have := (List.mem_filter.mp hx).2
      simp [hid] at this
    rw [hc, List.erase_append_right _ hnot]
    simp

/-- C9: `delete(id)` raises the not-found error of the entity type if and only if no
record of the collection it read has the id; in that case the collection is the same
afterwards, and a storage that already held the collection is left as it was. -/
theorem C9_delete_absent (kind : Kind) (fetch : String → Seed) (id : Int) (ls : Storage) :
    ((mockAPI.delete kind fetch id ls).1 = Except.error kind.notFound
        ↔ ∀ e ∈ current kind fetch ls, e.id ≠ id)
      ∧ ((∀ e ∈ current kind fetch ls, e.id ≠ id) →
          current kind fetch (mockAPI.delete kind fetch id ls).2 = current kind fetch ls
          ∧ ∀ c, ls kind.slot = some c → (mockAPI.delete kind fetch id ls).2 = ls) := by
  constructor
  · constructor
    · intro herr
      by_contra hne
      have hin : ∃ e ∈ current kind fetch ls, e.id = id := by
        by_contra hno
        apply hne
        intro e he heq
        exact hno ⟨e, he, heq⟩
      rw [delete_present kind fetch id ls hin] at herr
      simp at herr
    · intro habs
      rw [delete_absent kind fetch id ls habs]
  · intro habs
    rw [delete_absent kind fetch id ls habs]
    refine ⟨current_getData kind fetch ls, ?_⟩
    intro c hc
    simp [getData_stored fetch kind.key kind.defaultPath ls c hc]

/-! ## Update -/

theorem findIndex_none (p : Entity → Bool) (c : Collection) (h : ∀ e ∈ c, p e = false) :
    findIndex p c = none := by
  induction c with
  | nil => rfl
  | cons a as ih =>
    have ha : p a = false := h a (List.mem_cons_self a as)
    have has : findIndex p as = none := ih (fun e he => h e (List.mem_cons_of_mem a he))
    simp [findIndex, ha, has]

theorem findIndex_split (p : Entity → Bool) (c : Collection) (h : ∃ e ∈ c, p e = true) :
    ∃ l1 e l2, c = l1 ++ e :: l2 ∧ p e = true ∧ (∀ x ∈ l1, p x = false)
      ∧ findIndex p c = some l1.length := by
  induction c with
  | nil => simp at h
  | cons a as ih =>
    by_cases ha : p a = true
    · exact ⟨[], a, as, rfl, ha, by simp, by simp [findIndex, ha]⟩
    · have ha2 : p a = false := by simpa using ha
      obtain ⟨e, he, hpe⟩ := h
      have he2 : e ∈ as := by
        rcases List.mem_cons.mp he with rfl | h2
        · exact absurd hpe ha
        · exact h2
      obtain ⟨l1, e1, l2, hc, hp, hfirst, hidx⟩ := ih ⟨e, he2, hpe⟩
      refine ⟨a :: l1, e1, l2, by rw [hc]; rfl, hp, ?_, ?_⟩
      · intro x hx
        rcases List.mem_cons.mp hx with rfl | h2
        · exact ha2
        · exact hfirst x h2
      · simp [findIndex, ha2, hidx]

theorem modify_split (f : Entity → Entity) (l1 l2 : Collection) (e : Entity) :
    (l1 ++ e :: l2).modify f l1.length = l1 ++ f e :: l2 := by
  induction l1 with
  | nil => simp [List.modify_zero_cons]
  | cons a as ih => simp [List.modify_succ_cons, ih]

theorem getElem?_split (l1 l2 : Collection) (e : Entity) :
    (l1 ++ e :: l2)[l1.length]? = some e := by
  rw [List.getElem?_append_right (le_refl _)]
  simp

theorem update_absent (kind : Kind) (fetch : String → Seed) (id : Int) (updates : Patch)
    (ls : Storage) (h : ∀ e ∈ current kind fetch ls, e.id ≠ id) :
    mockAPI.update kind fetch id updates ls
      = (Except.error kind.notFound, (getData fetch kind.key kind.defaultPath ls).2) := by
  have hidx : findIndex (fun b => b.id == id) (current kind fetch ls) = none := by
    apply findIndex_none
    intro e he
    simpa using h e he
  unfold current at hidx
  simp only [mockAPI.update, hidx, apiResponse_notFound]

theorem update_present (kind : Kind) (fetch : String → Seed) (id : Int) (updates : Patch)
    (ls : Storage) (h : ∃ e ∈ current kind fetch ls, e.id = id) :
    ∃ l1 e l2, current kind fetch ls = l1 ++ e :: l2 ∧ e.id = id ∧ (∀ x ∈ l1, x.id ≠ id)
      ∧ mockAPI.update kind fetch id updates ls
          = (Except.ok ⟨some (e.merge updates), true⟩,
             saveData kind.key (l1 ++ e.merge updates :: l2)
               (getData fetch kind.key kind.defaultPath ls).2) := by
  have h2 : ∃ e ∈ current kind fetch ls, (fun b : Entity => b.id == id) e = true := by
    obtain ⟨e, he, hid⟩ := h
    exact ⟨e, he, by simp [hid]⟩
  obtain ⟨l1, e, l2, hc, hp, hfirst, hidx⟩ := findIndex_split _ _ h2
  refine ⟨l1, e, l2, hc, by simpa using hp, ?_, ?_⟩
  · intro x hx
    simpa using hfirst x hx
  · unfold current at hidx hc
    simp only [mockAPI.update, hidx]
    rw [hc, modify_split, getElem?_split, apiResponse_ok]

theorem get_append (x y : Obj) (k : String) :
    Obj.get (x ++ y) k = match Obj.get x k with
                         | some v => some v
                         | none => Obj.get y k := by
  induction x with
  | nil => simp [Obj.get]
  | cons a as ih =>
    obtain ⟨k1, v1⟩ := a
    by_cases hk : k1 = k
    · simp [Obj.get, hk]
    · simp [Obj.get, hk, ih]

theorem get_map_override (a b : Obj) (k : String) :
    Obj.get (a.map (fun kv => (kv.1, match Obj.get b kv.1 with
                                      | some v => v
                                      | none => kv.2))) k
      = match Obj.get a k, Obj.get b k with
        | some _, some w => some w
        | some v, none => some v
        | none, _ => none := by
  induction a with
  | nil => simp [Obj.get]
  | cons x xs ih =>
    obtain ⟨k1, v1⟩ := x
    by_cases hk : k1 = k
    · subst hk
      cases hb : Obj.get b k1 <;> simp [Obj.get, hb]
    · simp [Obj.get, hk, ih]

theorem get_filter_new (a b : Obj) (k : String) :
    Obj.get (b.filter (fun kv => (Obj.get a kv.1).isNone)) k
      = match Obj.get a k with
        | some _ => none
        | none => Obj.get b k := by
  induction b with
  | nil => cases Obj.get a k <;> simp [Obj.get]
  | cons x xs ih =>
    obtain ⟨k1, v1⟩ := x
    by_cases hk : k1 = k
    · subst hk
      cases ha : Obj.get a k1 with
      | none => simp [List.filter_cons, ha, Obj.get]
      | some w =>
        simp only [List.filter_cons, ha, Option.isNone_some]
        simpa [ha] using ih
    · cases ha1 : Obj.get a k1 with
      | none =>
        simp only [List.filter_cons, ha1, Option.isNone_none, if_true, Obj.get, hk, if_false]
        exact ih
      | some w =>
        simp only [List.filter_cons, ha1, Option.isNone_some]
        cases ha : Obj.get a k with
        | none => simpa [ha, Obj.get, hk] using ih
        | some u => simpa [ha] using ih

/-- Reading a key of `{ ...a, ...b }` gives the value of `b` when `b` has the key and
the value of `a` otherwise. -/
theorem get_spread (a b : Obj) (k : String) :
    Obj.get (spread a b) k = match Obj.get b k with
                             | some v => some v
                             | none => Obj.get a k := by
  unfold spread
  rw [get_append, get_map_override, get_filter_new]
  cases Obj.get a k <;> cases Obj.get b k <;> rfl

/-- C6: on a stored collection `c` that holds a record with the id, `update(id, updates)`
replaces the first such record `e` by the spread of `e` and `updates` and stores the
result; the records before and after it, the order and the length are those of `c`, the
merged record is returned, and every key of the merged record has the value of
`updates` when `updates` has the key and the value it had in `e` otherwise (the `id`
key included). -/
theorem C6_update_merges (kind : Kind) (fetch : String → Seed) (id : Int)
    (updates : Patch) (ls : Storage) (c : Collection) (h : ls kind.slot = some c)
    (hin : ∃ e ∈ c, e.id = id) :
    ∃ l1 e l2, c = l1 ++ e :: l2 ∧ e.id = id ∧ (∀ x ∈ l1, x.id ≠ id)
      ∧ mockAPI.update kind fetch id updates ls
          = (Except.ok ⟨some (e.merge updates), true⟩,
             ls.setItem kind.slot (l1 ++ e.merge updates :: l2))
      ∧ (l1 ++ e.merge updates :: l2).length = c.length
      ∧ (∀ k, (e.merge updates).fields.get k
            = match updates.fields.get k with
              | some v => some v
              | none => e.fields.get k)
      ∧ (e.merge updates).id = (match updates.id with
                                | some v => v
                                | none => e.id) := by
  have hcur : current kind fetch ls = c := current_stored kind fetch ls c h
  have hg := getData_stored fetch kind.key kind.defaultPath ls c h
  obtain ⟨l1, e, l2, hc, hid, hfirst, hupd⟩ :=
    update_present kind fetch id updates ls (by rw [hcur]; exact hin)
  rw [hcur] at hc
  rw [hg] at hupd
  refine ⟨l1, e, l2, hc, hid, hfirst, hupd, ?_, ?_, rfl⟩
  · rw [hc]; simp
  · intro k
    exact get_spread e.fields updates.fields k

/-- C7: when no record of the collection it read has the id, `update(id, updates)`
raises the not-found error of the entity type, whatever `updates` is; the collection is
the same afterwards, and a storage that already held the collection is left as it
was. -/
theorem C7_update_absent (kind : Kind) (fetch : String → Seed) (id : Int)
    (updates : Patch) (ls : Storage) (habs : ∀ e ∈ current kind fetch ls, e.id ≠ id) :
    (mockAPI.update kind fetch id updates ls).1 = Except.error kind.notFound
      ∧ current kind fetch (mockAPI.update kind fetch id updates ls).2
          = current kind fetch ls
      ∧ ∀ c, ls kind.slot = some c → (mockAPI.update kind fetch id updates ls).2 = ls := by
  rw [update_absent kind fetch id updates ls habs]
  refine ⟨rfl, current_getData kind fetch ls, ?_⟩
  intro c hc
  simp [getData_stored fetch kind.key kind.defaultPath ls c hc]

/-! ## Composite-key removal -/

theorem matchesStoreAndBook_iff (storeId bookId : Int) (i : Entity) :
    mockAPI.inventory.matchesStoreAndBook storeId bookId i = true
      ↔ i.fields.get "store_id" = some (Value.num storeId)
        ∧ i.fields.get "book_id" = some (Value.num bookId) := by
  simp [mockAPI.inventory.matchesStoreAndBook]

/-- C10: on a stored inventory `c`, `deleteByStoreAndBook(storeId, bookId)` raises
'Inventory item not found' if and only if no item has both `store_id = storeId` and
`book_id = bookId`, and then leaves the storage as it was; otherwise it succeeds and
stores, in the order of `c`, exactly the items of `c` that do not have both keys. -/
theorem C10_deleteByStoreAndBook (fetch : String → Seed) (storeId bookId : Int)
    (ls : Storage) (c : Collection) (h : ls "library_inventory" = some c) :
    ((mockAPI.inventory.deleteByStoreAndBook fetch storeId bookId ls).1
          = Except.error "Inventory item not found"
        ↔ ∀ i ∈ c, ¬ (i.fields.get "store_id" = some (Value.num storeId)
                      ∧ i.fields.get "book_id" = some (Value.num bookId)))
      ∧ ((∀ i ∈ c, ¬ (i.fields.get "store_id" = some (Value.num storeId)
                      ∧ i.fields.get "book_id" = some (Value.num bookId)))
          → mockAPI.inventory.deleteByStoreAndBook fetch storeId bookId ls
              = (Except.error "Inventory item not found", ls))
      ∧ ((∃ i ∈ c, i.fields.get "store_id" = some (Value.num storeId)
                    ∧ i.fields.get "book_id" = some (Value.num bookId))
          → mockAPI.inventory.deleteByStoreAndBook fetch storeId bookId ls
              = (Except.ok ⟨some ⟨true⟩, true⟩,
                 ls.setItem "library_inventory"
                   (c.filter (fun i =>
                     !(mockAPI.inventory.matchesStoreAndBook storeId bookId i)))))
      ∧ (∀ i, i ∈ c.filter (fun i =>
                !(mockAPI.inventory.matchesStoreAndBook storeId bookId i))
              ↔ i ∈ c ∧ ¬ (i.fields.get "store_id" = some (Value.num storeId)
                          ∧ i.fields.get "book_id" = some (Value.num bookId)))
      ∧ (c.filter (fun i =>
            !(mockAPI.inventory.matchesStoreAndBook storeId bookId i))).Sublist c := by
  have hg := getData_stored fetch "inventory" "/data/inventory.json" ls c h
  have hlen := filter_ne_length_iff c (mockAPI.inventory.matchesStoreAndBook storeId bookId)
  have hnone : (∀ e ∈ c, mockAPI.inventory.matchesStoreAndBook storeId bookId e = false)
      ↔ ∀ i ∈ c, ¬ (i.fields.get "store_id" = some (Value.num storeId)
                      ∧ i.fields.get "book_id" = some (Value.num bookId)) := by
    constructor
    · intro hall i hi hboth
      have := hall i hi
      rw [(matchesStoreAndBook_iff storeId bookId i).mpr hboth] at this
      exact Bool.noConfusion this
    · intro hall i hi
      cases hm : mockAPI.inventory.matchesStoreAndBook storeId bookId i with
      | false => rfl
      | true => exact absurd ((matchesStoreAndBook_iff storeId bookId i).mp hm) (hall i hi)
  have hfail : (∀ i ∈ c, ¬ (i.fields.get "store_id" = some (Value.num storeId)
                      ∧ i.fields.get "book_id" = some (Value.num bookId)))
      → mockAPI.inventory.deleteByStoreAndBook fetch storeId bookId ls
          = (Except.error "Inventory item not found", ls) := by
    intro hall
    have hl := hlen.mpr (hnone.mpr hall)
    simp only [mockAPI.inventory.deleteByStoreAndBook, hg, hl, if_true]
    rfl
  have hsucc : (∃ i ∈ c, i.fields.get "store_id" = some (Value.num storeId)
                    ∧ i.fields.get "book_id" = some (Value.num bookId))
      → mockAPI.inventory.deleteByStoreAndBook fetch storeId bookId ls
          = (Except.ok ⟨some ⟨true⟩, true⟩,
             ls.setItem "library_inventory"
               (c.filter (fun i =>
                 !(mockAPI.inventory.matchesStoreAndBook storeId bookId i)))) := by
    rintro ⟨i, hi, hboth⟩
    have hl : ¬ (c.filter (fun b =>
        !(mockAPI.inventory.matchesStoreAndBook storeId bookId b))).length = c.length := by
      intro heq
      exact (hnone.mp (hlen.mp heq)) i hi hboth
    simp only [mockAPI.inventory.deleteByStoreAndBook, hg, hl, if_false]
    rfl
  refine ⟨⟨?_, fun hall => by rw [hfail hall]⟩, hfail, hsucc, ?_, List.filter_sublist c⟩
  · intro herr
    by_contra hne
    have hex : ∃ i ∈ c, i.fields.get "store_id" = some (Value.num storeId)
                    ∧ i.fields.get "book_id" = some (Value.num bookId) := by
      by_contra hno
      exact hne (fun i hi hboth => hno ⟨i, hi, hboth⟩)
    rw [hsucc hex] at herr
    simp at herr
  · intro i
    rw [List.mem_filter]
    constructor
    · rintro ⟨hi, hm⟩
      refine ⟨hi, fun hboth => ?_⟩
      rw [(matchesStoreAndBook_iff storeId bookId i).mpr hboth] at hm
      simp at hm
    · rintro ⟨hi, hnot⟩
      refine ⟨hi, ?_⟩
      cases hm : mockAPI.inventory.matchesStoreAndBook storeId bookId i with
      | false => rfl
      | true => exact absurd ((matchesStoreAndBook_iff storeId bookId i).mp hm) hnot

/-! ## The collection after an operation -/

theorem current_delete (kind : Kind) (fetch : String → Seed) (id : Int) (ls : Storage) :
    current kind fetch (mockAPI.delete kind fetch id ls).2
      = (current kind fetch ls).filter (fun b => b.id != id) := by
  by_cases h : ∃ e ∈ current kind fetch ls, e.id = id
  · rw [delete_present kind fetch id ls h]
    exact current_saveData kind fetch _ _
  · have habs : ∀ e ∈ current kind fetch ls, e.id ≠ id := fun e he heq => h ⟨e, he, heq⟩
    rw [delete_absent kind fetch id ls habs]
    simp only [current_getData]
    symm
    rw [List.filter_eq_self]
    intro e he
    simpa using habs e he

theorem current_update_absent (kind : Kind) (fetch : String → Seed) (id : Int)
    (updates : Patch) (ls : Storage) (h : ∀ e ∈ current kind fetch ls, e.id ≠ id) :
    current kind fetch (mockAPI.update kind fetch id updates ls).2
      = current kind fetch ls := by
  rw [update_absent kind fetch id updates ls h]
  exact current_getData kind fetch ls

theorem generateId_eq_of_max (c : Collection) (m : Int) (hm : m ∈ ids c)
    (hub : ∀ x ∈ ids c, x ≤ m) : generateId (some c) = toDouble (m + 1) := by
  cases c with
  | nil => simp [ids] at hm
  | cons e rest =>
    obtain ⟨m1, hm1, hgen, hle⟩ := generateId_cons e rest
    obtain ⟨x, hx, hxm⟩ := List.mem_map.mp hm
    have h1 : m ≤ m1.id := by rw [← hxm]; exact hle x hx
    have h2 : m1.id ≤ m := hub m1.id (List.mem_map.mpr ⟨m1, hm1, rfl⟩)
    have h3 : m1.id = m := by omega
    rw [hgen, h3]

/-- After a `create` on safe ids with room for one more, the next id is one more. -/
theorem generateId_after_create (c : Collection) (f : Obj) (room : Nat)
    (h : safeIds (room + 1) c) :
    generateId (some (c ++ [⟨generateId (some c), f⟩])) = generateId (some c) + 1 := by
  obtain ⟨hgt, hlo, hhi⟩ := generateId_gt (room + 1) c h
  have hmax : generateId (some (c ++ [⟨generateId (some c), f⟩]))
      = toDouble (generateId (some c) + 1) := by
    apply generateId_eq_of_max
    · simp [ids]
    · intro x hx
      simp only [ids, List.map_append, List.map_cons, List.map_nil, List.mem_append,
        List.mem_singleton] at hx
      rcases hx with hx | hx
      · obtain ⟨y, hy, hyx⟩ := List.mem_map.mp hx
        have := hgt y hy
        omega
      · omega
  rw [hmax]
  apply toDouble_small <;> omega

/-- A `create` on safe ids uses up one of the room. -/
theorem safeIds_after_create (c : Collection) (f : Obj) (room : Nat)
    (h : safeIds (room + 1) c) : safeIds room (c ++ [⟨generateId (some c), f⟩]) := by
  obtain ⟨_, hlo, hhi⟩ := generateId_gt (room + 1) c h
  have h1 := h.1
  refine ⟨by omega, ?_⟩
  intro e he
  rcases List.mem_append.mp he with he | he
  · have := h.2 e he
    omega
  · simp only [List.mem_singleton] at he
    subst he
    simp only
    omega

theorem safeIds_filter (c : Collection) (p : Entity → Bool) (room : Nat)
    (h : safeIds (room + 1) c) : safeIds room (c.filter p) := by
  have h1 := h.1
  refine ⟨by omega, ?_⟩
  intro e he
  have := h.2 e (List.mem_filter.mp he).1
  omega

theorem isMaxId_false (id : Int) (c : Collection) (h : isMaxId id c = false) :
    (∀ e ∈ c, e.id ≠ id) ∨ ∃ e ∈ c, id < e.id := by
  by_cases hin : ∃ e ∈ c, e.id = id
  · right
    by_contra hno
    have hall : ∀ e ∈ c, e.id ≤ id := by
      intro e he
      by_contra hlt
      exact hno ⟨e, he, by omega⟩
    have : isMaxId id c = true := by
      simp only [isMaxId, Bool.and_eq_true, List.any_eq_true, List.all_eq_true,
        decide_eq_true_eq, beq_iff_eq]
      exact ⟨hin, hall⟩
    rw [h] at this
    exact Bool.noConfusion this
  · left
    intro e he heq
    exact hin ⟨e, he, heq⟩

/-- A `delete` that does not remove the record with the largest id leaves the next id
as it was. -/
theorem generateId_after_delete (c : Collection) (id : Int) (h : isMaxId id c = false) :
    generateId (some (c.filter (fun b => b.id != id))) = generateId (some c) := by
  rcases isMaxId_false id c h with habs | ⟨e, he, hlt⟩
  · have : c.filter (fun b => b.id != id) = c := by
      rw [List.filter_eq_self]
      intro x hx
      simpa using habs x hx
    rw [this]
  · cases c with
    | nil => simp at he
    | cons a as =>
      obtain ⟨m, hm, hgen, hle⟩ := generateId_cons a as
      rw [hgen]
      apply generateId_eq_of_max
      · apply List.mem_map.mpr
        refine ⟨m, List.mem_filter.mpr ⟨hm, ?_⟩, rfl⟩
        have := hle e he
        have hne : m.id ≠ id := by omega
        simpa using hne
      · intro x hx
        obtain ⟨y, hy, hyx⟩ := List.mem_map.mp hx
        rw [← hyx]
        exact hle y (List.mem_filter.mp hy).1

theorem keepsMax_append (kind : Kind) (fetch : String → Seed) (pre post : List Op)
    (ls : Storage) (h : keepsMax kind fetch (pre ++ post) ls = true) :
    keepsMax kind fetch post (runOps kind fetch pre ls) = true := by
  induction pre generalizing ls with
  | nil => simpa [runOps] using h
  | cons op rest ih =>
    cases op with
    | create data =>
      simp only [List.cons_append, keepsMax] at h
      exact ih _ h
    | delete id =>
      simp only [List.cons_append, keepsMax, Bool.and_eq_true] at h
      exact ih _ h.2

/-- A call on safe ids uses up at most one of the room. -/
theorem safeIds_after (kind : Kind) (fetch : String → Seed) (op : Op) (ls : Storage)
    (room : Nat) (h : safeIds (room + 1) (current kind fetch ls)) :
    safeIds room (current kind fetch (op.after kind fetch ls)) := by
  cases op with
  | create data =>
    simp only [Op.after]
    rw [current_create]
    exact safeIds_after_create _ _ room h
  | delete id =>
    simp only [Op.after]
    rw [current_delete]
    exact safeIds_filter _ _ room h

theorem safeIds_runOps (kind : Kind) (fetch : String → Seed) (pre post : List Op)
    (ls : Storage) (h : safeIds (pre ++ post).length (current kind fetch ls)) :
    safeIds post.length (current kind fetch (runOps kind fetch pre ls)) := by
  induction pre generalizing ls with
  | nil => simpa [runOps] using h
  | cons op rest ih =>
    simp only [runOps]
    apply ih
    exact safeIds_after kind fetch op ls _ (by simpa using h)

/-- While no `delete` removes the largest id and the ids are safe with room for the calls,
every id handed out is at least the next id of the collection at the start, and the ids
handed out increase strictly. -/
theorem assignedIds_increase (kind : Kind) (fetch : String → Seed) (ops : List Op)
    (ls : Storage) (h : keepsMax kind fetch ops ls = true)
    (hsafe : safeIds ops.length (current kind fetch ls)) :
    (∀ a ∈ assignedIds kind fetch ops ls, generateId (some (current kind fetch ls)) ≤ a)
      ∧ (assignedIds kind fetch ops ls).Pairwise (fun a b => a < b) := by
  induction ops generalizing ls with
  | nil => simp [assignedIds]
  | cons op rest ih =>
    have hsafe1 : safeIds (rest.length + 1) (current kind fetch ls) := by
      simpa using hsafe
    have hrest := safeIds_after kind fetch op ls rest.length hsafe1
    cases op with
    | create data =>
      simp only [keepsMax] at h
      obtain ⟨ih1, ih2⟩ := ih _ h hrest
      have hnext : generateId (some (current kind fetch
          ((Op.create data).after kind fetch ls)))
          = generateId (some (current kind fetch ls)) + 1 := by
        simp only [Op.after]
        rw [current_create, generateId_after_create _ _ rest.length hsafe1]
      have hassigned : (Op.create data).assigned kind fetch ls
          = some (generateId (some (current kind fetch ls))) := by
        simp [Op.assigned, create_fst]
      simp only [assignedIds, hassigned, Option.toList_some, List.singleton_append,
        List.mem_cons, List.pairwise_cons]
      refine ⟨?_, ?_, ih2⟩
      · rintro a (rfl | ha)
        · exact le_refl _
        · have := ih1 a ha
          omega
      · intro a ha
        have := ih1 a ha
        omega
    | delete id =>
      simp only [keepsMax, Bool.and_eq_true, Bool.not_eq_true'] at h
      obtain ⟨ih1, ih2⟩ := ih _ h.2 hrest
      have hnext : generateId (some (current kind fetch
          ((Op.delete id).after kind fetch ls)))
          = generateId (some (current kind fetch ls)) := by
        simp only [Op.after]
        rw [current_delete, generateId_after_delete _ _ h.1]
      simp only [assignedIds, Op.assigned, Option.toList_none, List.nil_append]
      refine ⟨?_, ih2⟩
      intro a ha
      have := ih1 a ha
      omega

/-! ## Ids over time -/

/-- C3, the claim fails: on the two sample books a create hands out id 3, the delete of
that record brings the collection back to the two books, and the next create hands out
id 3 again; and on the one book with id 2^53 two creates with no delete hand out the id
2^53 twice. -/
theorem C3_id_reused_after_delete :
    assignedIds Kind.books sampleFetch sampleOps sampleStorage = [3, 3]
      ∧ current Kind.books sampleFetch
          (runOps Kind.books sampleFetch (sampleOps.take 2) sampleStorage) = sampleBooks
      ∧ assignedIds Kind.books sampleFetch sampleTwoCreates sampleLargeIdStorage
          = [9007199254740992, 9007199254740992] := by
  decide

/-- C3, as amended: over every sequence of creates and deletes in which no delete
removes the record that has the largest id at the time of the call, on a collection of
safe ids that leave room for the calls (each id is above -2^53 and, with the number of
calls added, below 2^53), the ids handed out by the creates increase strictly, and an id
held by a record of the collection at any point of the sequence, deleted afterwards or
not, is smaller than every id handed out later, so it is not handed out again. -/
theorem C3_ids_increase_while_max_kept (kind : Kind) (fetch : String → Seed)
    (ops : List Op) (ls : Storage) (h : keepsMax kind fetch ops ls = true)
    (hsafe : safeIds ops.length (current kind fetch ls)) :
    (assignedIds kind fetch ops ls).Pairwise (fun a b => a < b)
      ∧ ∀ pre post, ops = pre ++ post →
          ∀ e ∈ current kind fetch (runOps kind fetch pre ls),
            ∀ a ∈ assignedIds kind fetch post (runOps kind fetch pre ls), e.id < a := by
  refine ⟨(assignedIds_increase kind fetch ops ls h hsafe).2, ?_⟩
  intro pre post hsplit e he a ha
  rw [hsplit] at h hsafe
  have hpost := keepsMax_append kind fetch pre post ls h
  have hsafepost := safeIds_runOps kind fetch pre post ls hsafe
  have h1 := (assignedIds_increase kind fetch post _ hpost hsafepost).1 a ha
  have h2 := (generateId_gt _ _ hsafepost).1 e he
  omega

/-! ## Distinct ids -/

/-- C4, the claim fails: the two sample books have distinct ids, and `update(1, { id: 2 })`
stores two records with id 2; and the one book with id 2^53 has distinct ids, and a
`create` stores two records with id 2^53. -/
theorem C4_update_can_duplicate_id :
    (ids (current Kind.books sampleFetch sampleStorage)).Nodup
      ∧ ¬ (ids (current Kind.books sampleFetch
            (mockAPI.update Kind.books sampleFetch 1 sampleRenumber sampleStorage).2)).Nodup
      ∧ (ids (current Kind.books sampleFetch sampleLargeIdStorage)).Nodup
      ∧ ¬ (ids (current Kind.books sampleFetch
            (mockAPI.create Kind.books sampleFetch sampleRename sampleLargeIdStorage).2)).Nodup := by
  decide

/-- C4, as amended: when the ids of a collection are pairwise distinct they are still
pairwise distinct after every `create(data)` when they are safe integers (above -2^53 and
below 2^53), after every `delete(id)`, and after every `update(id, updates)` whose
`updates` has no `id` key, or has the `id` it is called with, or has an `id` that no
record of the collection has. -/
theorem C4_ids_stay_distinct (kind : Kind) (fetch : String → Seed) (ls : Storage)
    (hnd : (ids (current kind fetch ls)).Nodup) :
    (safeIds 0 (current kind fetch ls) →
        ∀ data, (ids (current kind fetch (mockAPI.create kind fetch data ls).2)).Nodup)
      ∧ (∀ id, (ids (current kind fetch (mockAPI.delete kind fetch id ls).2)).Nodup)
      ∧ ∀ id updates,
          (∀ v, updates.id = some v → v = id ∨ ∀ e ∈ current kind fetch ls, e.id ≠ v) →
          (ids (current kind fetch (mockAPI.update kind fetch id updates ls).2)).Nodup := by
  refine ⟨?_, ?_, ?_⟩
  · intro hsafe data
    rw [current_create]
    simp only [ids, List.map_append, List.map_cons, List.map_nil]
    rw [List.nodup_append]
    refine ⟨hnd, List.nodup_singleton _, ?_⟩
    intro x hx hx2
    obtain ⟨y, hy, hyx⟩ := List.mem_map.mp hx
    have := (generateId_gt 0 _ hsafe).1 y hy
    simp only [List.mem_singleton] at hx2
    omega
  · intro id
    rw [current_delete]
    exact hnd.sublist ((List.filter_sublist _).map _)
  · intro id updates hid
    by_cases hin : ∃ e ∈ current kind fetch ls, e.id = id
    · obtain ⟨l1, e, l2, hc, heid, _, hupd⟩ := update_present kind fetch id updates ls hin
      rw [hupd, current_saveData]
      rw [hc] at hnd
      simp only [ids, List.map_append, List.map_cons] at hnd ⊢
      cases hu : updates.id with
      | none =>
        simpa [Entity.merge, hu] using hnd
      | some v =>
        rcases hid v hu with hv | hv
        · simpa [Entity.merge, hu, hv, heid] using hnd
        · have hmid := List.nodup_middle.mp hnd
          have hfresh : v ∉ List.map Entity.id l1 ++ List.map Entity.id l2 := by
            intro hmem
            rcases List.mem_append.mp hmem with h1 | h1
            · obtain ⟨y, hy, hyv⟩ := List.mem_map.mp h1
              exact hv y (by rw [hc]; simp [hy]) hyv
            · obtain ⟨y, hy, hyv⟩ := List.mem_map.mp h1
              exact hv y (by rw [hc]; simp [hy]) hyv
          have : (Entity.merge e updates).id = v := by simp [Entity.merge, hu]
          rw [this]
          exact List.nodup_middle.mpr
            (List.nodup_cons.mpr ⟨hfresh, (List.nodup_cons.mp hmid).2⟩)
    · have habs : ∀ e ∈ current kind fetch ls, e.id ≠ id := fun e he heq => hin ⟨e, he, heq⟩
      rw [current_update_absent kind fetch id updates ls habs]
      exact hnd

/-! ## The theorems at the sample data -/

theorem C3_ids_increase_while_max_kept_witness :
    keepsMax Kind.books sampleFetch sampleKeepOps sampleStorage = true
      ∧ safeIds sampleKeepOps.length (current Kind.books sampleFetch sampleStorage)
      ∧ (assignedIds Kind.books sampleFetch sampleKeepOps sampleStorage).Pairwise
          (fun a b => a < b) :=
  ⟨by decide, by decide,
   (C3_ids_increase_while_max_kept Kind.books sampleFetch sampleKeepOps sampleStorage
     (by decide) (by decide)).1⟩

theorem C4_ids_stay_distinct_witness :
    (ids (current Kind.books sampleFetch sampleStorage)).Nodup
      ∧ safeIds 0 (current Kind.books sampleFetch sampleStorage)
      ∧ (ids (current Kind.books sampleFetch
          (mockAPI.create Kind.books sampleFetch sampleNewBook sampleStorage).2)).Nodup
      ∧ (ids (current Kind.books sampleFetch
          (mockAPI.update Kind.books sampleFetch 1 sampleRename sampleStorage).2)).Nodup :=
  ⟨by decide, by decide,
   (C4_ids_stay_distinct Kind.books sampleFetch sampleStorage (by decide)).1
     (by decide) sampleNewBook,
   (C4_ids_stay_distinct Kind.books sampleFetch sampleStorage (by decide)).2.2
     1 sampleRename (fun _ hv => Option.noConfusion hv)⟩

theorem C5_create_appends_witness :
    sampleStorage Kind.books.slot = some sampleBooks
      ∧ (mockAPI.create Kind.books sampleFetch sampleNewBook sampleStorage).2 Kind.books.slot
          = some (sampleBooks ++ [⟨generateId (some sampleBooks), sampleNewBook.fields⟩]) :=
  ⟨by decide,
   (C5_create_appends Kind.books sampleFetch sampleNewBook sampleStorage sampleBooks
     (by decide)).2.2.1⟩

theorem C6_update_merges_witness :
    sampleStorage Kind.books.slot = some sampleBooks
      ∧ (∃ e ∈ sampleBooks, e.id = 2)
      ∧ ∃ e : Entity, e.id = 2
          ∧ (mockAPI.update Kind.books sampleFetch 2 sampleRename sampleStorage).1
              = Except.ok ⟨some (e.merge sampleRename), true⟩ := by
  refine ⟨by decide, by decide, ?_⟩
  obtain ⟨_, e, _, _, hid, _, hupd, _⟩ :=
    C6_update_merges Kind.books sampleFetch 2 sampleRename sampleStorage sampleBooks
      (by decide) (by decide)
  exact ⟨e, hid, by rw [hupd]⟩

theorem C7_update_absent_witness :
    (∀ e ∈ current Kind.books sampleFetch sampleStorage, e.id ≠ 9)
      ∧ (mockAPI.update Kind.books sampleFetch 9 sampleRename sampleStorage).1
          = Except.error "Book not found" :=
  ⟨by decide,
   (C7_update_absent Kind.books sampleFetch 9 sampleRename sampleStorage (by decide)).1⟩

theorem C8_delete_removes_one_witness :
    sampleStorage Kind.books.slot = some sampleBooks
      ∧ (ids sampleBooks).Nodup
      ∧ (∃ e ∈ sampleBooks, e.id = 1)
      ∧ (mockAPI.delete Kind.books sampleFetch 1 sampleStorage).1
          = Except.ok ⟨some ⟨true⟩, true⟩ := by
  refine ⟨by decide, by decide, by decide, ?_⟩
  obtain ⟨_, _, _, _, _, hdel, _⟩ :=
    C8_delete_removes_one Kind.books sampleFetch 1 sampleStorage sampleBooks
      (by decide) (by decide) (by decide)
  rw [hdel]

theorem C9_delete_absent_witness :
    (∀ e ∈ current Kind.books sampleFetch sampleStorage, e.id ≠ 9)
      ∧ (mockAPI.delete Kind.books sampleFetch 9 sampleStorage).1
          = Except.error "Book not found" :=
  ⟨by decide, (C9_delete_absent Kind.books sampleFetch 9 sampleStorage).1.mpr (by decide)⟩

theorem C10_deleteByStoreAndBook_witness :
    sampleInventoryStorage "library_inventory" = some sampleInventory
      ∧ (mockAPI.inventory.deleteByStoreAndBook sampleFetch 1 1 sampleInventoryStorage).2
            "library_inventory"
          = some [⟨2, [("store_id", Value.num 1), ("book_id", Value.num 2)]⟩,
                  ⟨4, [("store_id", Value.num 2), ("book_id", Value.num 1)]⟩] := by
  refine ⟨by decide, ?_⟩
  rw [(C10_deleteByStoreAndBook sampleFetch 1 1 sampleInventoryStorage sampleInventory
    (by decide)).2.2.1 (by decide)]
  decide

/-! ## Reads -/

theorem getByStore_eq (fetch : String → Seed) (storeId : Int) (ls : Storage) :
    mockAPI.inventory.getByStore fetch storeId ls
      = (Except.ok ⟨some ((current Kind.inventory fetch ls).filter
            (fun item => item.fields.get "store_id" == some (Value.num storeId))), true⟩,
         (getData fetch "inventory" "/data/inventory.json" ls).2) := rfl

/-- C11: `getByStore(storeId)` returns the success envelope of the filter of the
inventory by `store_id === storeId`: exactly the items with that `store_id`, as often as
the inventory holds them and in its order; the inventory is the same afterwards, and a
storage that already held it is left as it was. After `create` of an item with
`store_id` 1 on an empty inventory, `getByStore(1)` returns exactly that item. -/
theorem C11_getByStore (fetch : String → Seed) (storeId : Int) (ls : Storage) :
    (∃ items, (mockAPI.inventory.getByStore fetch storeId ls).1 = Except.ok ⟨some items, true⟩
        ∧ items = (current Kind.inventory fetch ls).filter
            (fun item => item.fields.get "store_id" == some (Value.num storeId))
        ∧ (∀ i, i ∈ items ↔ i ∈ current Kind.inventory fetch ls
              ∧ i.fields.get "store_id" = some (Value.num storeId))
        ∧ items.Sublist (current Kind.inventory fetch ls)
        ∧ ∀ i, i.fields.get "store_id" = some (Value.num storeId) →
            items.count i = (current Kind.inventory fetch ls).count i)
      ∧ current Kind.inventory fetch (mockAPI.inventory.getByStore fetch storeId ls).2
          = current Kind.inventory fetch ls
      ∧ (∀ c, ls "library_inventory" = some c →
          (mockAPI.inventory.getByStore fetch storeId ls).2 = ls)
      ∧ ∀ data : Patch, current Kind.inventory fetch ls = [] →
          data.fields.get "store_id" = some (Value.num 1) →
          (mockAPI.inventory.getByStore fetch 1
              (mockAPI.create Kind.inventory fetch data ls).2).1
            = Except.ok ⟨some [⟨1, data.fields⟩], true⟩ := by
  refine ⟨⟨(current Kind.inventory fetch ls).filter
      (fun item => item.fields.get "store_id" == some (Value.num storeId)),
    rfl, rfl, ?_, List.filter_sublist _, ?_⟩, ?_, ?_, ?_⟩
  · intro i
    rw [List.mem_filter]
    simp
  · intro i hi
    apply List.count_filter
    simp [hi]
  · rw [getByStore_eq]
    exact current_getData Kind.inventory fetch ls
  · intro c hc
    rw [getByStore_eq]
    have := getData_stored fetch "inventory" "/data/inventory.json" ls c hc
    simp [this]
  · intro data hempty hstore
    rw [getByStore_eq, current_create, hempty]
    simp [generateId, ids, hstore]

/-! ## Storage load -/

/-- C17: when the slot of the key holds a collection, `getData` returns it and the
storage as it was, whatever the seed resource is (the seed is not read); when the slot is
empty it returns the seed resource, as is when it is an array and as a one-element
collection when it is a single object, and stores exactly that collection in the slot,
leaving the other slots alone; a second `getData` of the key then returns the same
collection and the same storage, whatever the seed resource is. -/
theorem C17_getData_load (fetch : String → Seed) (key path : String) (ls : Storage) :
    (∀ c, ls ("library_" ++ key) = some c →
        ∀ fetch2 : String → Seed, getData fetch2 key path ls = (c, ls))
      ∧ (ls ("library_" ++ key) = none →
          (∀ c, fetch path = Seed.array c → (getData fetch key path ls).1 = c)
          ∧ (∀ e, fetch path = Seed.single e → (getData fetch key path ls).1 = [e])
          ∧ (getData fetch key path ls).2
              = ls.setItem ("library_" ++ key) (getData fetch key path ls).1
          ∧ (getData fetch key path ls).2 ("library_" ++ key)
              = some (getData fetch key path ls).1
          ∧ ∀ k, k ≠ "library_" ++ key → (getData fetch key path ls).2 k = ls k)
      ∧ ∀ (fetch2 : String → Seed) (path2 : String),
          getData fetch2 key path2 (getData fetch key path ls).2
            = ((getData fetch key path ls).1, (getData fetch key path ls).2) := by
  refine ⟨?_, ?_, ?_⟩
  · intro c hc fetch2
    exact getData_stored fetch2 key path ls c hc
  · intro hnone
    refine ⟨?_, ?_, ?_, getData_slot fetch key path ls, ?_⟩
    · intro c hc
      simp [getData, hnone, hc]
    · intro e he
      simp [getData, hnone, he]
    · simp [getData, hnone]
    · intro k hk
      simp [getData, hnone, Storage.setItem, hk]
  · intro fetch2 path2
    exact getData_stored fetch2 key path2 _ _ (getData_slot fetch key path ls)

/-! ## The data context -/

theorem newId_eq_generateId (items : Collection) :
    LibraryContext.newId items = generateId (some items) := by
  cases items with
  | nil => rfl
  | cons b rest => rfl

/-- C19: the id that `addBook`, `addAuthor`, `addStore` and `addInventoryItem` give
the new record is `generateId` of the collection they compute it from, for every
collection: 1 when it is empty, and otherwise the sum, in doubles, of 1 and the id of a
record that no record of the collection exceeds, which on safe ids is one more than that
id. -/
theorem C19_context_id_rule (items : Collection) (item : Patch) (prev : Collection) :
    LibraryContext.newId items = generateId (some items)
      ∧ (LibraryContext.addBook items item prev).1.id = generateId (some items)
      ∧ (LibraryContext.addAuthor items item prev).1.id = generateId (some items)
      ∧ (LibraryContext.addStore items item prev).1.id = generateId (some items)
      ∧ (LibraryContext.addInventoryItem items item prev).1.id = generateId (some items)
      ∧ LibraryContext.newId [] = 1
      ∧ ∀ e rest, items = e :: rest →
          ∃ m ∈ items, (∀ x ∈ items, x.id ≤ m.id)
            ∧ LibraryContext.newId items = toDouble (m.id + 1)
            ∧ (safeIds 0 items → LibraryContext.newId items = m.id + 1) := by
  have h := newId_eq_generateId items
  refine ⟨h, h, h, h, h, rfl, ?_⟩
  intro e rest hitems
  subst hitems
  obtain ⟨m, hm, hgen, hle⟩ := generateId_cons e rest
  refine ⟨m, hm, hle, by rw [h, hgen], ?_⟩
  intro hsafe
  have hb := hsafe.2 m hm
  rw [h, hgen]
  apply toDouble_small <;> omega

/-! ## Authentication -/

theorem apiResponse_error {α : Type} (d : Option α) (msg : String) (h : msg ≠ "") :
    apiResponse d (some msg) = Except.error msg := by
  simp [apiResponse, h]

theorem apiResponse_success {α : Type} (d : Option α) (error : Option String)
    (env : Envelope α) (h : apiResponse d error = Except.ok env) : env.success = true := by
  unfold apiResponse at h
  cases error with
  | none =>
    simp only [Except.ok.injEq] at h
    rw [← h]
  | some msg =>
    by_cases hm : msg = ""
    · simp only [hm, ne_eq, not_true_eq_false, if_false, Except.ok.injEq] at h
      rw [← h]
    · simp [hm] at h

theorem strictEqId_iff (id : Int) (v : Option Json) :
    strictEqId id v = true ↔ v = some (Json.num id) := by
  cases v with
  | none => simp [strictEqId]
  | some j =>
    cases j <;> simp [strictEqId]

theorem mem_MOCK_USERS (u : User) (hu : u ∈ MOCK_USERS) :
    u = ⟨1, "Admin User", "admin@library.com", "admin123", "admin"⟩ := by
  simpa [MOCK_USERS] using hu

theorem login_found (P : Platform) (now : Int) (email password : String) (user : User)
    (h : MOCK_USERS.find? (fun u => u.email == email && u.password == password) = some user) :
    mockAPI.auth.login P now email password
      = Except.ok ⟨some ⟨user.withoutPassword, P.mint user.id now⟩, true⟩ := by
  simp only [mockAPI.auth.login, h, apiResponse_ok]
  rfl

theorem login_not_found (P : Platform) (now : Int) (email password : String)
    (h : MOCK_USERS.find? (fun u => u.email == email && u.password == password) = none) :
    mockAPI.auth.login P now email password = Except.error "Invalid email or password" := by
  simp only [mockAPI.auth.login, h]
  exact apiResponse_error none _ (by decide)

theorem login_of_credentials (P : Platform) (now : Int) (email password : String) :
    (∃ u ∈ MOCK_USERS, u.email = email ∧ u.password = password)
      ↔ ∃ u ∈ MOCK_USERS, u.email = email ∧ u.password = password
          ∧ mockAPI.auth.login P now email password
              = Except.ok ⟨some ⟨u.withoutPassword, P.mint u.id now⟩, true⟩ := by
  constructor
  · rintro ⟨u, hu, he, hp⟩
    cases hfind : MOCK_USERS.find? (fun u => u.email == email && u.password == password) with
    | none =>
      have := List.find?_eq_none.mp hfind u hu
      simp [he, hp] at this
    | some user =>
      have hmem : user ∈ MOCK_USERS := List.mem_of_find?_eq_some hfind
      have hq := List.find?_some hfind
      simp only [Bool.and_eq_true, beq_iff_eq] at hq
      exact ⟨user, hmem, hq.1, hq.2, login_found P now email password user hfind⟩
  · rintro ⟨u, hu, he, hp, _⟩
    exact ⟨u, hu, he, hp⟩

/-- C12: `login(email, password)` returns a success envelope if and only if a user of
`MOCK_USERS` has exactly that email and exactly that password; the envelope then holds
the id, name, email and role of such a user, in a record that has no password key, with
the token of that user's id and the time of the call; when no user matches, the call
raises 'Invalid email or password'. -/
theorem C12_login (P : Platform) (now : Int) (email password : String) :
    ((∃ env, mockAPI.auth.login P now email password = Except.ok env)
        ↔ ∃ u ∈ MOCK_USERS, u.email = email ∧ u.password = password)
      ∧ (∀ env, mockAPI.auth.login P now email password = Except.ok env →
          ∃ u ∈ MOCK_USERS, u.email = email ∧ u.password = password
            ∧ env = ⟨some ⟨u.withoutPassword, P.mint u.id now⟩, true⟩
            ∧ u.withoutPassword.id = u.id ∧ u.withoutPassword.name = u.name
            ∧ u.withoutPassword.email = u.email ∧ u.withoutPassword.role = u.role)
      ∧ ((¬ ∃ u ∈ MOCK_USERS, u.email = email ∧ u.password = password) →
          mockAPI.auth.login P now email password
            = Except.error "Invalid email or password") := by
  cases hfind : MOCK_USERS.find? (fun u => u.email == email && u.password == password) with
  | none =>
    have hnone : ¬ ∃ u ∈ MOCK_USERS, u.email = email ∧ u.password = password := by
      rintro ⟨u, hu, he, hp⟩
      have := List.find?_eq_none.mp hfind u hu
      simp [he, hp] at this
    have hlogin := login_not_found P now email password hfind
    refine ⟨⟨?_, fun h => absurd h hnone⟩, ?_, fun _ => hlogin⟩
    · rintro ⟨env, henv⟩
      rw [hlogin] at henv
      cases henv
    · intro env henv
      rw [hlogin] at henv
      cases henv
  | some user =>
    have hmem : user ∈ MOCK_USERS := List.mem_of_find?_eq_some hfind
    have hp := List.find?_some hfind
    simp only [Bool.and_eq_true, beq_iff_eq] at hp
    have hlogin := login_found P now email password user hfind
    have hex : ∃ u ∈ MOCK_USERS, u.email = email ∧ u.password = password :=
      ⟨user, hmem, hp.1, hp.2⟩
    refine ⟨⟨fun _ => hex, fun _ => ⟨_, hlogin⟩⟩, ?_, fun h => absurd hex h⟩
    intro env henv
    rw [hlogin] at henv
    cases henv
    exact ⟨user, hmem, hp.1, hp.2, rfl, rfl, rfl, rfl, rfl⟩

theorem getCurrentUser_of_userId (P : Platform) (token : String) (decoded : Json)
    (u : User) (hdec : P.decode token = some decoded) (hu : u ∈ MOCK_USERS)
    (hid : decoded.userId = some (some (Json.num u.id))) :
    mockAPI.auth.getCurrentUser P token = Except.ok ⟨some u.withoutPassword, true⟩ := by
  have hu1 := mem_MOCK_USERS u hu
  subst hu1
  simp only [mockAPI.auth.getCurrentUser, hdec, hid]
  simp [MOCK_USERS, strictEqId, apiResponse_ok]

theorem getCurrentUser_no_user (P : Platform) (token : String) (decoded : Json)
    (hdec : P.decode token = some decoded)
    (hno : ∀ u ∈ MOCK_USERS, decoded.userId ≠ some (some (Json.num u.id))) :
    mockAPI.auth.getCurrentUser P token = Except.error "Invalid token" := by
  simp only [mockAPI.auth.getCurrentUser, hdec]
  cases hv : decoded.userId with
  | none => exact apiResponse_error none _ (by decide)
  | some v =>
    have hfind : MOCK_USERS.find? (fun u => strictEqId u.id v) = none := by
      rw [List.find?_eq_none]
      intro u hu hs
      have := (strictEqId_iff u.id v).mp hs
      exact hno u hu (by rw [hv, this])
    simp only [hfind]
    exact apiResponse_error none _ (by decide)

theorem getCurrentUser_undecodable (P : Platform) (token : String)
    (hdec : P.decode token = none) :
    mockAPI.auth.getCurrentUser P token = Except.error "Invalid token" := by
  simp only [mockAPI.auth.getCurrentUser, hdec]
  exact apiResponse_error none _ (by decide)

theorem tokenPayload_userId (userId timestamp : Int) :
    (tokenPayload userId timestamp).userId = some (some (Json.num userId)) := by
  simp [tokenPayload, Json.userId, List.lookup]

/-- C13: for credentials that a user of `MOCK_USERS` has and every time of the call,
when the browser decodes the token that it encoded back to the same object,
`getCurrentUser` of the token that `login` returned succeeds with the user record that
`login` returned, which is the matching user without the password key. -/
theorem C13_auth_round_trip (P : Platform) (now : Int) (email password : String)
    (u : User) (hu : u ∈ MOCK_USERS) (he : u.email = email) (hp : u.password = password)
    (hrt : P.decode (P.mint u.id now) = some (tokenPayload u.id now)) :
    ∃ data : LoginData,
      mockAPI.auth.login P now email password = Except.ok ⟨some data, true⟩
        ∧ mockAPI.auth.getCurrentUser P data.token = Except.ok ⟨some data.user, true⟩
        ∧ data.user = u.withoutPassword := by
  obtain ⟨v, hv, _, _, hdata⟩ :=
    (login_of_credentials P now email password).mp ⟨u, hu, he, hp⟩
  have hvu : v = u := by rw [mem_MOCK_USERS v hv, mem_MOCK_USERS u hu]
  subst hvu
  refine ⟨⟨v.withoutPassword, P.mint v.id now⟩, hdata, ?_, rfl⟩
  exact getCurrentUser_of_userId P _ _ v hrt hu (tokenPayload_userId v.id now)

/-- C14: `getCurrentUser(token)` raises 'Invalid token' when `atob` throws, when
`JSON.parse` throws, and when the decoded value has no `userId` equal to the id of a
user of `MOCK_USERS` (the read of `userId` of `null` throws and is caught); in the one
remaining case, a decoded value whose `userId` is the id of a user, it returns the
success envelope of that user without the password key. -/
theorem C14_getCurrentUser (P : Platform) (token : String) :
    (P.atob token = none →
        mockAPI.auth.getCurrentUser P token = Except.error "Invalid token")
      ∧ (∀ text, P.atob token = some text → P.parse text = none →
          mockAPI.auth.getCurrentUser P token = Except.error "Invalid token")
      ∧ (∀ decoded, P.decode token = some decoded →
          (∀ u ∈ MOCK_USERS, decoded.userId ≠ some (some (Json.num u.id))) →
          mockAPI.auth.getCurrentUser P token = Except.error "Invalid token")
      ∧ (∀ decoded u, P.decode token = some decoded → u ∈ MOCK_USERS →
          decoded.userId = some (some (Json.num u.id)) →
          mockAPI.auth.getCurrentUser P token = Except.ok ⟨some u.withoutPassword, true⟩)
      ∧ (mockAPI.auth.getCurrentUser P token = Except.error "Invalid token"
          ∨ ∃ u ∈ MOCK_USERS,
              mockAPI.auth.getCurrentUser P token
                = Except.ok ⟨some u.withoutPassword, true⟩) := by
  refine ⟨?_, ?_, ?_, ?_, ?_⟩
  · intro h
    exact getCurrentUser_undecodable P token (by simp [Platform.decode, h])
  · intro text h1 h2
    exact getCurrentUser_undecodable P token (by simp [Platform.decode, h1, h2])
  · intro decoded hdec hno
    exact getCurrentUser_no_user P token decoded hdec hno
  · intro decoded u hdec hu hid
    exact getCurrentUser_of_userId P token decoded u hdec hu hid
  · cases hdec : P.decode token with
    | none => exact Or.inl (getCurrentUser_undecodable P token hdec)
    | some decoded =>
      by_cases hex : ∃ u ∈ MOCK_USERS, decoded.userId = some (some (Json.num u.id))
      · obtain ⟨u, hu, hid⟩ := hex
        exact Or.inr ⟨u, hu, getCurrentUser_of_userId P token decoded u hdec hu hid⟩
      · left
        apply getCurrentUser_no_user P token decoded hdec
        intro u hu hid
        exact hex ⟨u, hu, hid⟩

/-- C15: for every user of `MOCK_USERS`, every token that decodes to an object whose
`userId` is the id of that user is accepted by `getCurrentUser`, with that user as the
result, whatever else the object holds; in particular the token of `{ userId, timestamp }`
is accepted for every timestamp that the browser decodes back, and two such tokens of
the same user with different timestamps give the same result. -/
theorem C15_token_not_verified (P : Platform) (u : User) (hu : u ∈ MOCK_USERS) :
    (∀ token members, P.decode token = some (Json.obj members) →
        members.lookup "userId" = some (Json.num u.id) →
        mockAPI.auth.getCurrentUser P token = Except.ok ⟨some u.withoutPassword, true⟩)
      ∧ (∀ t : Int, P.decode (P.mint u.id t) = some (tokenPayload u.id t) →
          mockAPI.auth.getCurrentUser P (P.mint u.id t)
            = Except.ok ⟨some u.withoutPassword, true⟩)
      ∧ ∀ t1 t2 : Int, P.decode (P.mint u.id t1) = some (tokenPayload u.id t1) →
          P.decode (P.mint u.id t2) = some (tokenPayload u.id t2) →
          mockAPI.auth.getCurrentUser P (P.mint u.id t1)
            = mockAPI.auth.getCurrentUser P (P.mint u.id t2) := by
  have hmint : ∀ t : Int, P.decode (P.mint u.id t) = some (tokenPayload u.id t) →
      mockAPI.auth.getCurrentUser P (P.mint u.id t)
        = Except.ok ⟨some u.withoutPassword, true⟩ := by
    intro t ht
    exact getCurrentUser_of_userId P _ _ u ht hu (tokenPayload_userId u.id t)
  refine ⟨?_, hmint, ?_⟩
  · intro token members hdec hid
    apply getCurrentUser_of_userId P token (Json.obj members) u hdec hu
    simp [Json.userId, hid]
  · intro t1 t2 h1 h2
    rw [hmint t1 h1, hmint t2 h2]

/-! ## Raised failures -/

/-- C16: `apiResponse(data, error)` raises an error with the message for every error
argument that is a non-empty string, as is each error argument that the mock service
passes to it (the not-found message of each entity type, 'Invalid email or password' and
'Invalid token'), and returns `{ data, success: true }` when the error argument is
absent; every envelope it returns has `success` true. So each failure of an operation of
the mock service is raised, and no operation of the mock service returns an envelope
whose `success` is false. -/
theorem C16_failures_are_raised :
    (∀ (α : Type) (data : Option α) (msg : String), msg ≠ "" →
        apiResponse data (some msg) = Except.error msg)
      ∧ (∀ (α : Type) (data : Option α), apiResponse data none = Except.ok ⟨data, true⟩)
      ∧ (∀ (α : Type) (data : Option α) (error : Option String) (env : Envelope α),
          apiResponse data error = Except.ok env → env.success = true)
      ∧ (∀ (α : Type) (data : Option α) (kind : Kind),
          apiResponse data (some kind.notFound) = Except.error kind.notFound)
      ∧ (∀ (α : Type) (data : Option α),
          apiResponse data (some "Invalid email or password")
              = Except.error "Invalid email or password"
            ∧ apiResponse data (some "Invalid token") = Except.error "Invalid token")
      ∧ (∀ kind fetch ls env,
          (mockAPI.getAll kind fetch ls).1 = Except.ok env → env.success = true)
      ∧ (∀ kind fetch id ls env,
          (mockAPI.getById kind fetch id ls).1 = Except.ok env → env.success = true)
      ∧ (∀ kind fetch data ls env,
          (mockAPI.create kind fetch data ls).1 = Except.ok env → env.success = true)
      ∧ (∀ kind fetch id updates ls env,
          (mockAPI.update kind fetch id updates ls).1 = Except.ok env → env.success = true)
      ∧ (∀ kind fetch id ls env,
          (mockAPI.delete kind fetch id ls).1 = Except.ok env → env.success = true)
      ∧ (∀ fetch storeId ls env,
          (mockAPI.inventory.getByStore fetch storeId ls).1 = Except.ok env
            → env.success = true)
      ∧ (∀ fetch storeId bookId ls env,
          (mockAPI.inventory.deleteByStoreAndBook fetch storeId bookId ls).1 = Except.ok env
            → env.success = true)
      ∧ (∀ P now email password env,
          mockAPI.auth.login P now email password = Except.ok env → env.success = true)
      ∧ (∀ env, mockAPI.auth.logout = Except.ok env → env.success = true)
      ∧ (∀ P token env,
          mockAPI.auth.getCurrentUser P token = Except.ok env → env.success = true) := by
  refine ⟨fun α d msg h => apiResponse_error d msg h, fun α d => rfl,
    fun α d e env h => apiResponse_success d e env h,
    fun α d kind => apiResponse_notFound kind d,
    fun α d => ⟨apiResponse_error d _ (by decide), apiResponse_error d _ (by decide)⟩,
    ?_, ?_, ?_, ?_, ?_, ?_, ?_, ?_, ?_, ?_⟩
  · intro kind fetch ls env h
    simp only [mockAPI.getAll] at h
    exact apiResponse_success _ _ env h
  · intro kind fetch id ls env h
    simp only [mockAPI.getById] at h
    split at h <;> simp only at h <;> exact apiResponse_success _ _ env h
  · intro kind fetch data ls env h
    simp only [mockAPI.create] at h
    exact apiResponse_success _ _ env h
  · intro kind fetch id updates ls env h
    simp only [mockAPI.update] at h
    split at h <;> simp only at h <;> exact apiResponse_success _ _ env h
  · intro kind fetch id ls env h
    simp only [mockAPI.delete] at h
    split at h <;> simp only at h <;> exact apiResponse_success _ _ env h
  · intro fetch storeId ls env h
    simp only [mockAPI.inventory.getByStore] at h
    exact apiResponse_success _ _ env h
  · intro fetch storeId bookId ls env h
    simp only [mockAPI.inventory.deleteByStoreAndBook] at h
    split at h <;> simp only at h <;> exact apiResponse_success _ _ env h
  · intro P now email password env h
    simp only [mockAPI.auth.login] at h
    split at h <;> exact apiResponse_success _ _ env h
  · intro env h
    exact apiResponse_success _ _ env h
  · intro P token env h
    simp only [mockAPI.auth.getCurrentUser] at h
    split at h
    · exact apiResponse_success _ _ env h
    · split at h
      · exact apiResponse_success _ _ env h
      · split at h <;> exact apiResponse_success _ _ env h

/-! ## Persistence of the data context -/

theorem persistEffect_nonempty (kind : Kind) (e : Entity) (rest : Collection)
    (ls : Storage) :
    LibraryContext.persistEffect kind (e :: rest) ls kind.slot = some (e :: rest) := by
  simp [LibraryContext.persistEffect, Storage.setItem, Kind.slot]

/-- C18, the code at the failing input: with one book in memory and in the books slot,
`deleteBook` of that book gives the empty collection, and after the persistence effect
the books slot still holds the one book, not the empty collection. -/
theorem C18_emptied_collection_not_persisted :
    LibraryContext.deleteBook 1 sampleOneBook = []
      ∧ LibraryContext.persistEffect Kind.books (LibraryContext.deleteBook 1 sampleOneBook)
            sampleOneBookStorage "library_books"
          = some sampleOneBook
      ∧ LibraryContext.persistEffect Kind.books (LibraryContext.deleteBook 1 sampleOneBook)
            sampleOneBookStorage "library_books"
          ≠ some (LibraryContext.deleteBook 1 sampleOneBook) := by
  decide

/-! ## Startup load -/

/-- C20: when all four slots hold a collection, `fetchData` sets the four collections
to the cached ones, fetches nothing and leaves the storage as it was, whatever the seed
resources are; it fetches only when a slot is empty, and then it fetches all four seed
resources, sets all four collections from them and stores them in the four slots. -/
theorem C20_cache_preference (fetch : String → Seed) (ls : Storage) :
    (∀ b a st i, ls "library_books" = some b → ls "library_authors" = some a →
        ls "library_stores" = some st → ls "library_inventory" = some i →
        ∀ fetch2 : String → Seed,
          (LibraryContext.fetchData fetch2 ls).state = ⟨b, a, st, i, false, none⟩
            ∧ (LibraryContext.fetchData fetch2 ls).fetched = []
            ∧ (LibraryContext.fetchData fetch2 ls).storage = ls)
      ∧ ((LibraryContext.fetchData fetch ls).fetched ≠ [] →
          ls "library_books" = none ∨ ls "library_authors" = none
            ∨ ls "library_stores" = none ∨ ls "library_inventory" = none)
      ∧ ((ls "library_books" = none ∨ ls "library_authors" = none
            ∨ ls "library_stores" = none ∨ ls "library_inventory" = none) →
          (LibraryContext.fetchData fetch ls).state
              = ⟨LibraryContext.toArray (fetch "/data/books.json"),
                 LibraryContext.toArray (fetch "/data/authors.json"),
                 LibraryContext.toArray (fetch "/data/stores.json"),
                 LibraryContext.toArray (fetch "/data/inventory.json"), false, none⟩
            ∧ (LibraryContext.fetchData fetch ls).fetched
                = ["/data/books.json", "/data/authors.json", "/data/stores.json",
                   "/data/inventory.json"]
            ∧ (LibraryContext.fetchData fetch ls).storage "library_books"
                = some (LibraryContext.toArray (fetch "/data/books.json"))
            ∧ (LibraryContext.fetchData fetch ls).storage "library_authors"
                = some (LibraryContext.toArray (fetch "/data/authors.json"))
            ∧ (LibraryContext.fetchData fetch ls).storage "library_stores"
                = some (LibraryContext.toArray (fetch "/data/stores.json"))
            ∧ (LibraryContext.fetchData fetch ls).storage "library_inventory"
                = some (LibraryContext.toArray (fetch "/data/inventory.json"))) := by
  refine ⟨?_, ?_, ?_⟩
  · intro b a st i hb ha hs hi fetch2
    simp [LibraryContext.fetchData, hb, ha, hs, hi]
  · intro hf
    by_contra hall
    simp only [not_or] at hall
    obtain ⟨hb, ha, hs, hi⟩ := hall
    obtain ⟨b, hb⟩ := Option.ne_none_iff_exists'.mp hb
    obtain ⟨a, ha⟩ := Option.ne_none_iff_exists'.mp ha
    obtain ⟨st, hs⟩ := Option.ne_none_iff_exists'.mp hs
    obtain ⟨i, hi⟩ := Option.ne_none_iff_exists'.mp hi
    apply hf
    simp [LibraryContext.fetchData, hb, ha, hs, hi]
  · intro hmiss
    cases hb : ls "library_books" <;> cases ha : ls "library_authors"
      <;> cases hs : ls "library_stores" <;> cases hi : ls "library_inventory"
      <;> simp [hb, ha, hs, hi] at hmiss
      <;> simp [LibraryContext.fetchData, hb, ha, hs, hi, Storage.setItem]

/-! ## The theorems of the reads, the tokens and the startup load at the sample data -/

theorem C11_getByStore_witness :
    current Kind.inventory sampleFetch emptyStorage = []
      ∧ sampleItem.fields.get "store_id" = some (Value.num 1)
      ∧ (mockAPI.inventory.getByStore sampleFetch 1
            (mockAPI.create Kind.inventory sampleFetch sampleItem emptyStorage).2).1
          = Except.ok ⟨some [⟨1, sampleItem.fields⟩], true⟩ :=
  ⟨by decide, by decide,
   (C11_getByStore sampleFetch 1 emptyStorage).2.2.2 sampleItem (by decide) (by decide)⟩

theorem C13_auth_round_trip_witness :
    sampleAdmin ∈ MOCK_USERS
      ∧ samplePlatform.decode (samplePlatform.mint sampleAdmin.id 5)
          = some (tokenPayload sampleAdmin.id 5)
      ∧ ∃ data : LoginData,
          mockAPI.auth.login samplePlatform 5 "admin@library.com" "admin123"
              = Except.ok ⟨some data, true⟩
            ∧ mockAPI.auth.getCurrentUser samplePlatform data.token
              = Except.ok ⟨some data.user, true⟩ := by
  refine ⟨by decide, rfl, ?_⟩
  obtain ⟨data, h1, h2, _⟩ :=
    C13_auth_round_trip samplePlatform 5 "admin@library.com" "admin123" sampleAdmin
      (by decide) rfl rfl rfl
  exact ⟨data, h1, h2⟩

theorem C15_token_not_verified_witness :
    sampleAdmin ∈ MOCK_USERS
      ∧ mockAPI.auth.getCurrentUser samplePlatform "forged"
          = Except.ok ⟨some sampleAdmin.withoutPassword, true⟩ :=
  ⟨by decide,
   (C15_token_not_verified samplePlatform sampleAdmin (by decide)).1 "forged" _ rfl rfl⟩

theorem C20_cache_preference_witness :
    (LibraryContext.fetchData sampleFetch sampleFullStorage).state
        = ⟨sampleBooks, [], [], sampleInventory, false, none⟩
      ∧ (LibraryContext.fetchData sampleFetch sampleFullStorage).fetched = [] :=
  ⟨((C20_cache_preference sampleFetch sampleFullStorage).1 sampleBooks [] [] sampleInventory
      (by decide) (by decide) (by decide) (by decide) sampleFetch).1,
   ((C20_cache_preference sampleFetch sampleFullStorage).1 sampleBooks [] [] sampleInventory
      (by decide) (by decide) (by decide) (by decide) sampleFetch).2.1⟩

/-! ## No cascade -/

theorem slot_ne_of_ne (kind other : Kind) (h : other ≠ kind) : other.slot ≠ kind.slot := by
  cases kind <;> cases other <;> first | exact absurd rfl h | decide

theorem getData_snd_other (fetch : String → Seed) (key path : String) (ls : Storage)
    (k : String) (hk : k ≠ "library_" ++ key) : (getData fetch key path ls).2 k = ls k := by
  unfold getData
  cases h : ls ("library_" ++ key) with
  | some c => rfl
  | none => simp [Storage.setItem, hk]

theorem current_congr (kind : Kind) (fetch : String → Seed) (ls1 ls2 : Storage)
    (h : ls1 kind.slot = ls2 kind.slot) : current kind fetch ls1 = current kind fetch ls2 := by
  unfold Kind.slot at h
  simp only [current, getData, h]
  cases ls2 ("library_" ++ kind.key) <;> rfl

theorem delete_other_slot (kind : Kind) (fetch : String → Seed) (id : Int) (ls : Storage)
    (k : String) (hk : k ≠ kind.slot) : (mockAPI.delete kind fetch id ls).2 k = ls k := by
  have hk2 : k ≠ "library_" ++ kind.key := hk
  simp only [mockAPI.delete]
  split
  · exact getData_snd_other fetch kind.key kind.defaultPath ls k hk2
  · simp only [saveData, Storage.setItem, hk2, if_false]
    exact getData_snd_other fetch kind.key kind.defaultPath ls k hk2

/-- C21: `deleteBook` and `deleteStore` of the data context change only the books,
respectively the stores, of the state, and the persistence effect of the changed
collection writes only its own slot; `delete` of the mock service changes only the slot
of its own entity type, so the collections of the other types read the same afterwards.
Every inventory item, one that names the deleted book or store included, is still in the
inventory. -/
theorem C21_no_cascade (id : Int) (s : LibraryContext.LibraryState) (kind : Kind)
    (fetch : String → Seed) (ls : Storage) :
    ((LibraryContext.callDeleteBook id s).inventory = s.inventory
        ∧ (LibraryContext.callDeleteBook id s).authors = s.authors
        ∧ (LibraryContext.callDeleteBook id s).stores = s.stores)
      ∧ ((LibraryContext.callDeleteStore id s).inventory = s.inventory
        ∧ (LibraryContext.callDeleteStore id s).books = s.books
        ∧ (LibraryContext.callDeleteStore id s).authors = s.authors)
      ∧ (∀ i ∈ s.inventory, i.fields.get "book_id" = some (Value.num id) →
          i ∈ (LibraryContext.callDeleteBook id s).inventory)
      ∧ (∀ i ∈ s.inventory, i.fields.get "store_id" = some (Value.num id) →
          i ∈ (LibraryContext.callDeleteStore id s).inventory)
      ∧ (∀ (c : Collection) (k : String), k ≠ kind.slot →
          LibraryContext.persistEffect kind c ls k = ls k)
      ∧ (∀ k, k ≠ kind.slot → (mockAPI.delete kind fetch id ls).2 k = ls k)
      ∧ (∀ other, other ≠ kind →
          current other fetch (mockAPI.delete kind fetch id ls).2 = current other fetch ls)
      ∧ (kind ≠ Kind.inventory →
          ∀ i ∈ current Kind.inventory fetch ls,
            i ∈ current Kind.inventory fetch (mockAPI.delete kind fetch id ls).2) := by
  have hother : ∀ other, other ≠ kind →
      current other fetch (mockAPI.delete kind fetch id ls).2 = current other fetch ls := by
    intro other hne
    apply current_congr
    exact delete_other_slot kind fetch id ls other.slot (slot_ne_of_ne kind other hne)
  refine ⟨⟨rfl, rfl, rfl⟩, ⟨rfl, rfl, rfl⟩, fun i hi _ => hi, fun i hi _ => hi, ?_,
    delete_other_slot kind fetch id ls, hother, ?_⟩
  · intro c k hk
    have hk2 : k ≠ "library_" ++ kind.key := hk
    unfold LibraryContext.persistEffect
    split
    · simp [Storage.setItem, hk2]
    · rfl
  · intro hne i hi
    rw [hother Kind.inventory (fun h => hne h.symm)]
    exact hi

/-! ## The data context against the mock service -/

theorem map_eq_self_of (f : Entity → Entity) (l : Collection) (h : ∀ x ∈ l, f x = x) :
    l.map f = l := by
  induction l with
  | nil => rfl
  | cons a as ih =>
    simp only [List.map_cons]
    rw [h a (List.mem_cons_self a as), ih (fun x hx => h x (List.mem_cons_of_mem a hx))]

theorem updateX_split (id : Int) (updates : Patch) (l1 l2 : Collection) (e : Entity)
    (heid : e.id = id) (h1 : ∀ x ∈ l1, x.id ≠ id) (h2 : ∀ x ∈ l2, x.id ≠ id) :
    LibraryContext.updateX id updates (l1 ++ e :: l2) = l1 ++ e.merge updates :: l2 := by
  have f1 : l1.map (fun item => if item.id == id then item.merge updates else item) = l1 := by
    apply map_eq_self_of
    intro x hx
    simp [h1 x hx]
  have f2 : l2.map (fun item => if item.id == id then item.merge updates else item) = l2 := by
    apply map_eq_self_of
    intro x hx
    simp [h2 x hx]
  simp only [LibraryContext.updateX, List.map_append, List.map_cons, f1, f2]
  simp [heid]

theorem updateX_absent (id : Int) (updates : Patch) (c : Collection)
    (h : ∀ x ∈ c, x.id ≠ id) : LibraryContext.updateX id updates c = c := by
  unfold LibraryContext.updateX
  apply map_eq_self_of
  intro x hx
  simp [h x hx]

theorem deleteX_absent (id : Int) (c : Collection) (h : ∀ x ∈ c, x.id ≠ id) :
    LibraryContext.deleteX id c = c := by
  unfold LibraryContext.deleteX
  rw [List.filter_eq_self]
  intro x hx
  simpa using h x hx

/-- C28: on a collection with pairwise distinct ids, for an id that a record has,
`update` of the mock service succeeds and stores the collection that `updateX` of the
data context computes; for an id that no record has, `updateX` and `deleteX` return the
collection as it is, with nothing to signal an error, where `update` and `delete` of the
mock service raise the not-found error. -/
theorem C28_update_agrees (kind : Kind) (fetch : String → Seed) (id : Int)
    (updates : Patch) (ls : Storage) (hnd : (ids (current kind fetch ls)).Nodup) :
    ((∃ e ∈ current kind fetch ls, e.id = id) →
        current kind fetch (mockAPI.update kind fetch id updates ls).2
            = LibraryContext.updateX id updates (current kind fetch ls)
          ∧ ∃ e, (mockAPI.update kind fetch id updates ls).1
              = Except.ok ⟨some e, true⟩)
      ∧ ((∀ e ∈ current kind fetch ls, e.id ≠ id) →
          LibraryContext.updateX id updates (current kind fetch ls) = current kind fetch ls
            ∧ LibraryContext.deleteX id (current kind fetch ls) = current kind fetch ls
            ∧ (mockAPI.update kind fetch id updates ls).1 = Except.error kind.notFound
            ∧ (mockAPI.delete kind fetch id ls).1 = Except.error kind.notFound) := by
  constructor
  · intro hin
    obtain ⟨l1, e, l2, hc, heid, hfirst, hupd⟩ := update_present kind fetch id updates ls hin
    rw [hupd, current_saveData]
    refine ⟨?_, e.merge updates, rfl⟩
    rw [hc] at hnd ⊢
    have hnd2 : (ids l1 ++ e.id :: ids l2).Nodup := by simpa [ids] using hnd
    have hl2 : ∀ x ∈ l2, x.id ≠ id := by
      intro x hx hxe
      have h2 : e.id ∈ ids l2 := List.mem_map.mpr ⟨x, hx, by rw [hxe, heid]⟩
      exact (List.nodup_cons.mp (List.nodup_append.mp hnd2).2.1).1 h2
    exact (updateX_split id updates l1 l2 e heid hfirst hl2).symm
  · intro habs
    refine ⟨updateX_absent id updates _ habs, deleteX_absent id _ habs, ?_, ?_⟩
    · rw [update_absent kind fetch id updates ls habs]
    · rw [delete_absent kind fetch id ls habs]

/-! ## Ids from a stale snapshot -/

/-- C30, the claim fails: the collection of the one book with id 2^53 has pairwise
distinct ids, and `addX` called with it as the collection of the render and of the state
gives the new record the id 2^53 again, so the result holds two records with that id. -/
theorem C30_fresh_snapshot_repeats_largest_id :
    (ids sampleLargeId).Nodup
      ∧ (LibraryContext.addX sampleLargeId sampleRename sampleLargeId).1.id
          = 9007199254740992
      ∧ ids (LibraryContext.addX sampleLargeId sampleRename sampleLargeId).2
          = [9007199254740992, 9007199254740992]
      ∧ ¬ (ids (LibraryContext.addX sampleLargeId sampleRename sampleLargeId).2).Nodup := by
  decide

/-- C30, as amended: `addX` takes the new id from the collection of the render and
appends to the collection of the state. When the two are the same collection and its ids
are pairwise distinct safe integers (above -2^53 and below 2^53), the result has pairwise
distinct ids; two calls made with the same collection of the render give both new
records the same id, and the state then holds two records with that id. -/
theorem C30_snapshot_ids (items : Collection) (item1 item2 : Patch) (prev : Collection) :
    ((ids items).Nodup → safeIds 0 items →
        (ids (LibraryContext.addX items item1 items).2).Nodup)
      ∧ (LibraryContext.addX items item1 prev).2
          = prev ++ [⟨LibraryContext.newId items, item1.fields⟩]
      ∧ (LibraryContext.addX items item2 (LibraryContext.addX items item1 prev).2).1.id
          = (LibraryContext.addX items item1 prev).1.id
      ∧ (LibraryContext.addX items item2 (LibraryContext.addX items item1 prev).2).2
          = prev ++ [(LibraryContext.addX items item1 prev).1,
                     (LibraryContext.addX items item2 prev).1]
      ∧ ¬ (ids (LibraryContext.addX items item2
            (LibraryContext.addX items item1 prev).2).2).Nodup := by
  refine ⟨?_, rfl, rfl, ?_, ?_⟩
  · intro hnd hsafe
    simp only [LibraryContext.addX, ids, List.map_append, List.map_cons, List.map_nil]
    rw [List.nodup_append]
    refine ⟨hnd, List.nodup_singleton _, ?_⟩
    intro x hx hx2
    obtain ⟨y, hy, hyx⟩ := List.mem_map.mp hx
    have := (generateId_gt 0 items hsafe).1 y hy
    rw [← newId_eq_generateId] at this
    simp only [List.mem_singleton] at hx2
    omega
  · simp [LibraryContext.addX]
  · simp only [LibraryContext.addX, ids, List.map_append, List.map_cons, List.map_nil,
      List.append_assoc, List.singleton_append]
    intro hnd
    have h2 := (List.nodup_append.mp hnd).2.1
    simp at h2

/-! ## The books view -/

theorem find?_split (p : Entity → Bool) (l1 l2 : Collection) (a : Entity)
    (h1 : ∀ x ∈ l1, p x = false) (ha : p a = true) :
    (l1 ++ a :: l2).find? p = some a := by
  induction l1 with
  | nil => simp [List.find?, ha]
  | cons x xs ih =>
    have hx : p x = false := h1 x (List.mem_cons_self x xs)
    simp only [List.cons_append, List.find?, hx]
    exact ih (fun y hy => h1 y (List.mem_cons_of_mem x hy))

theorem find?_none_of (p : Entity → Bool) (l : Collection) (h : ∀ x ∈ l, p x = false) :
    l.find? p = none := by
  rw [List.find?_eq_none]
  intro x hx
  simp [h x hx]

/-- C22: the books view has one row per book, in the order of the books, with the id
and the name of the book. The author of the row is 'Unknown Author' when no author has
an id equal to `author_id` of the book; otherwise it is the text of `first_name`, one
space and the text of `last_name` of the first author with that id, which for names that
are strings is first name, space, last name. The view is a total function. -/
theorem C22_books_view_author (numText : ℚ → String)
    (books authors stores inventory : Collection) :
    (Home.booksWithStores numText books authors stores inventory).length = books.length
      ∧ BrowseBooks.booksWithStores numText books authors stores inventory
          = Home.booksWithStores numText books authors stores inventory
      ∧ ∀ (i : Nat) (book : Entity), books[i]? = some book →
          ∃ row, (Home.booksWithStores numText books authors stores inventory)[i]? = some row
            ∧ row.id = book.id ∧ row.title = book.fields.get "name"
            ∧ ((∀ a ∈ authors, some (Value.num a.id) ≠ book.fields.get "author_id") →
                row.author = "Unknown Author")
            ∧ ∀ l1 a l2, authors = l1 ++ a :: l2 →
                (∀ x ∈ l1, some (Value.num x.id) ≠ book.fields.get "author_id") →
                some (Value.num a.id) = book.fields.get "author_id" →
                row.author = templateText numText (a.fields.get "first_name") ++ " "
                    ++ templateText numText (a.fields.get "last_name")
                  ∧ ∀ first last, a.fields.get "first_name" = some (Value.str first) →
                      a.fields.get "last_name" = some (Value.str last) →
                      row.author = first ++ " " ++ last := by
  refine ⟨by simp [Home.booksWithStores], rfl, ?_⟩
  intro i book hbook
  simp only [Home.booksWithStores, List.getElem?_map, hbook, Option.map_some']
  refine ⟨_, rfl, rfl, rfl, ?_, ?_⟩
  · intro hno
    have hfind : authors.find?
        (fun a => some (Value.num a.id) == book.fields.get "author_id") = none := by
      apply find?_none_of
      intro a ha
      simpa using hno a ha
    simp only [hfind]
  · intro l1 a l2 hauthors hfirst hmatch
    have hfind : authors.find?
        (fun a => some (Value.num a.id) == book.fields.get "author_id") = some a := by
      rw [hauthors]
      apply find?_split
      · intro x hx
        simpa using hfirst x hx
      · simpa using hmatch
    simp only [hfind]
    refine ⟨trivial, ?_⟩
    intro first last hf hl
    simp [hf, hl, templateText]

/-- C23, the claim fails: for the one sample book and the one sample item of store 1,
whose store has the empty string as name, the pair of the row carries 'Unknown Store',
not the name of the store with that id. -/
theorem C23_empty_store_name_unknown :
    (∃ s ∈ sampleNamelessStores, s.id = 1 ∧ s.fields.get "name" = some (Value.str ""))
      ∧ (Home.booksWithStores (fun _ => "") sampleOneBook [] sampleNamelessStores
            sampleOneItem).map (fun row => row.stores)
          = [[⟨Value.str "Unknown Store", some (Value.num 5)⟩]] := by
  decide

/-- C23, as amended: the stores of a book row hold one pair per inventory item whose
`book_id` is the id of the book, in inventory order; the pair carries the price of the
item, and as name 'Unknown Store' when no store has an id equal to `store_id` of the
item or when the name of the first such store is missing or falsy (the empty string),
and the name of that store otherwise. -/
theorem C23_books_view_stores (numText : ℚ → String)
    (books authors stores inventory : Collection) :
    ∀ (i : Nat) (book : Entity), books[i]? = some book →
      ∃ row, (Home.booksWithStores numText books authors stores inventory)[i]? = some row
        ∧ row.stores.length
            = (inventory.filter
                (fun item => item.fields.get "book_id" == some (Value.num book.id))).length
        ∧ ∀ (j : Nat) (item : Entity),
            (inventory.filter
              (fun item => item.fields.get "book_id" == some (Value.num book.id)))[j]?
                = some item →
            ∃ pair, row.stores[j]? = some pair ∧ pair.price = item.fields.get "price"
              ∧ ((∀ s ∈ stores, some (Value.num s.id) ≠ item.fields.get "store_id") →
                  pair.name = Value.str "Unknown Store")
              ∧ ∀ l1 s l2, stores = l1 ++ s :: l2 →
                  (∀ x ∈ l1, some (Value.num x.id) ≠ item.fields.get "store_id") →
                  some (Value.num s.id) = item.fields.get "store_id" →
                  (truthy (s.fields.get "name") = true →
                      some pair.name = s.fields.get "name")
                    ∧ (truthy (s.fields.get "name") = false →
                      pair.name = Value.str "Unknown Store") := by
  intro i book hbook
  simp only [Home.booksWithStores, List.getElem?_map, hbook, Option.map_some']
  refine ⟨_, rfl, by simp, ?_⟩
  intro j item hitem
  simp only [List.getElem?_map, hitem, Option.map_some']
  refine ⟨_, rfl, rfl, ?_, ?_⟩
  · intro hno
    have hfind : stores.find?
        (fun s => some (Value.num s.id) == item.fields.get "store_id") = none := by
      apply find?_none_of
      intro s hs
      simpa using hno s hs
    simp only [hfind, Home.storeName]
  · intro l1 s l2 hstores hfirst hmatch
    have hfind : stores.find?
        (fun s => some (Value.num s.id) == item.fields.get "store_id") = some s := by
      rw [hstores]
      apply find?_split
      · intro x hx
        simpa using hfirst x hx
      · simpa using hmatch
    simp only [hfind, Home.storeName]
    cases hname : s.fields.get "name" with
    | none => simp [truthy]
    | some v =>
      by_cases ht : truthy (some v) = true
      · simp [ht]
      · simp [ht]

/-! ## The stores view -/

/-- The reduce over the items of a store is the sum of their prices, in the arithmetic of
the view. -/
theorem foldl_addPrice (A : Arith) (items : Collection) (prices : List ℚ) (t : Option ℚ)
    (h : items.map (fun item => item.fields.get "price")
      = prices.map (fun q => some (Value.num q))) :
    items.foldl (Home.addPrice A) t
      = prices.foldl (fun s q => s.bind (fun t => A.add t q)) t := by
  induction items generalizing prices t with
  | nil =>
    cases prices with
    | nil => simp
    | cons q qs => simp at h
  | cons a as ih =>
    cases prices with
    | nil => simp at h
    | cons q qs =>
      simp only [List.map_cons, List.cons.injEq] at h
      simp only [List.foldl_cons]
      rw [ih qs _ h.2]
      congr 1
      cases t with
      | none => simp [Home.addPrice]
      | some t1 => simp [Home.addPrice, h.1]

theorem exact_foldl (prices : List ℚ) (t : ℚ) :
    prices.foldl (fun s q => s.bind (fun t => Arith.exact.add t q)) (some t)
      = some (t + prices.sum) := by
  induction prices generalizing t with
  | nil => simp
  | cons q qs ih =>
    simp only [List.foldl_cons, Option.some_bind, List.sum_cons]
    have hadd : Arith.exact.add t q = some (t + q) := rfl
    rw [hadd, ih (t + q)]
    congr 1
    ring

theorem addPrice_congr (A B : Arith) (hadd : B.add = A.add) :
    Home.addPrice B = Home.addPrice A := by
  funext sum item
  simp only [Home.addPrice, hadd]

/-- C24, the claim fails: for one store with two items of the prices 2^53 and 1 the view
gives, in the arithmetic of doubles, the item count 2 and the mean price 2^52, because
the sum 2^53 + 1 is rounded to 2^53; the sum of the prices divided by the count, which
exact arithmetic gives, is 2^52 + 1/2. -/
theorem C24_mean_price_rounded :
    Home.storesWithMetrics Arith.integerDoubles sampleStores sampleLargePrices
        = [⟨1, some (Value.str "Central"), 2, some 4503599627370496⟩]
      ∧ Home.storesWithMetrics Arith.exact sampleStores sampleLargePrices
        = [⟨1, some (Value.str "Central"), 2, some (9007199254740993 / 2)⟩]
      ∧ Home.storesWithMetrics Arith.integerDoubles sampleStores sampleLargePrices
        ≠ Home.storesWithMetrics Arith.exact sampleStores sampleLargePrices := by
  have h1 : Home.storesWithMetrics Arith.integerDoubles sampleStores sampleLargePrices
      = [⟨1, some (Value.str "Central"), 2, some 4503599627370496⟩] := by decide
  have h2 : Home.storesWithMetrics Arith.exact sampleStores sampleLargePrices
      = [⟨1, some (Value.str "Central"), 2, some (9007199254740993 / 2)⟩] := by
    simp [Home.storesWithMetrics, Home.addPrice, Arith.exact, sampleStores,
      sampleLargePrices, Obj.get]
    norm_num
  refine ⟨h1, h2, ?_⟩
  rw [h1, h2]
  intro h
  simp only [List.cons.injEq, Home.StoreMetrics.mk.injEq, Option.some.injEq, and_true,
    true_and] at h
  norm_num at h

/-- C24, as amended: the stores view has a row for each of the first five stores, in
their order. The item count of a row is the number of inventory items whose `store_id`
is the id of the store. The mean price is 0 when that count is 0 and otherwise, for items
whose prices are numbers, the quotient by the count of the sum of the prices, the sum
taken from 0 in the order of the items and each sum and the quotient being an operation
on JavaScript numbers; no quotient by 0 is taken, the view being the same for every
meaning of a quotient by 0. Over exact arithmetic the mean price is the sum of the prices
divided by the count, and mean price times item count is the sum of the prices. -/
theorem C24_store_metrics (A : Arith) (stores inventory : Collection) :
    (Home.storesWithMetrics A stores inventory).length = min 5 stores.length
      ∧ (∀ (i : Nat) (store : Entity), (stores.take 5)[i]? = some store →
          ∃ row, (Home.storesWithMetrics A stores inventory)[i]? = some row
            ∧ row.id = store.id ∧ row.name = store.fields.get "name"
            ∧ row.noOfBooks
                = inventory.countP
                    (fun item => item.fields.get "store_id" == some (Value.num store.id))
            ∧ (row.noOfBooks = 0 → row.averagePrice = some 0)
            ∧ ∀ prices : List ℚ,
                (inventory.filter
                    (fun item => item.fields.get "store_id" == some (Value.num store.id))).map
                    (fun item => item.fields.get "price")
                  = prices.map (fun q => some (Value.num q)) →
                row.averagePrice
                  = if row.noOfBooks = 0 then some 0
                    else (A.sum prices).bind (fun t => A.div t (row.noOfBooks : ℚ)))
      ∧ (∀ B : Arith, B.add = A.add → (∀ a b, b ≠ 0 → B.div a b = A.div a b) →
          Home.storesWithMetrics B stores inventory = Home.storesWithMetrics A stores inventory)
      ∧ ∀ (i : Nat) (store : Entity), (stores.take 5)[i]? = some store →
          ∃ row, (Home.storesWithMetrics Arith.exact stores inventory)[i]? = some row
            ∧ ∀ prices : List ℚ,
                (inventory.filter
                    (fun item => item.fields.get "store_id" == some (Value.num store.id))).map
                    (fun item => item.fields.get "price")
                  = prices.map (fun q => some (Value.num q)) →
                row.averagePrice
                    = some (if row.noOfBooks = 0 then 0 else prices.sum / (row.noOfBooks : ℚ))
                  ∧ ∀ a, row.averagePrice = some a → a * (row.noOfBooks : ℚ) = prices.sum := by
  refine ⟨by simp [Home.storesWithMetrics], ?_, ?_, ?_⟩
  · intro i store hstore
    simp only [Home.storesWithMetrics, List.getElem?_map, hstore, Option.map_some']
    refine ⟨_, rfl, rfl, rfl, (List.countP_eq_length_filter _ _).symm, ?_, ?_⟩
    · intro h0
      simp only at h0
      simp [h0]
    · intro prices hprices
      have hsum := foldl_addPrice A _ prices (some 0) hprices
      simp only [hsum, Arith.sum]
      by_cases h0 : (inventory.filter
          (fun item => item.fields.get "store_id" == some (Value.num store.id))).length = 0
      · simp [h0]
      · have hpos : 0 < (inventory.filter
            (fun item => item.fields.get "store_id" == some (Value.num store.id))).length :=
          Nat.pos_of_ne_zero h0
        simp [hpos, h0]
  · intro B hadd hdiv
    simp only [Home.storesWithMetrics, addPrice_congr A B hadd]
    apply List.map_congr_left
    intro store _
    by_cases h0 : (inventory.filter
        (fun item => item.fields.get "store_id" == some (Value.num store.id))).length = 0
    · simp [h0]
    · have hq : ((inventory.filter
          (fun item => item.fields.get "store_id" == some (Value.num store.id))).length : ℚ)
          ≠ 0 := by
        exact_mod_cast h0
      have hfun : (fun t => B.div t ((inventory.filter
          (fun item => item.fields.get "store_id" == some (Value.num store.id))).length : ℚ))
          = (fun t => A.div t ((inventory.filter
          (fun item => item.fields.get "store_id" == some (Value.num store.id))).length : ℚ)) := by
        funext t
        exact hdiv t _ hq
      simp only [hfun]
  · intro i store hstore
    simp only [Home.storesWithMetrics, List.getElem?_map, hstore, Option.map_some']
    refine ⟨_, rfl, ?_⟩
    intro prices hprices
    have hsum := foldl_addPrice Arith.exact _ prices (some 0) hprices
    rw [exact_foldl] at hsum
    have hlen : (inventory.filter
        (fun item => item.fields.get "store_id" == some (Value.num store.id))).length
        = prices.length := by
      have := congrArg List.length hprices
      simpa using this
    simp only [hsum, zero_add, Option.some_bind]
    by_cases h0 : (inventory.filter
        (fun item => item.fields.get "store_id" == some (Value.num store.id))).length = 0
    · have hp : prices = [] := by
        rw [h0] at hlen
        exact List.length_eq_zero.mp hlen.symm
      simp [h0, hp]
    · have hpos : 0 < (inventory.filter
          (fun item => item.fields.get "store_id" == some (Value.num store.id))).length :=
        Nat.pos_of_ne_zero h0
      have hq : ((inventory.filter
          (fun item => item.fields.get "store_id" == some (Value.num store.id))).length : ℚ)
          ≠ 0 := by
        exact_mod_cast h0
      have hdiv : ∀ t : ℚ, Arith.exact.div t ((inventory.filter
          (fun item => item.fields.get "store_id" == some (Value.num store.id))).length : ℚ)
          = some (t / ((inventory.filter
          (fun item => item.fields.get "store_id" == some (Value.num store.id))).length : ℚ)) := by
        intro t
        simp [Arith.exact, hq]
      simp only [hpos, if_true, h0, if_false, hdiv, Option.some.injEq, true_and]
      intro a ha
      rw [← ha]
      field_simp

/-! ## The add-book form -/

/-- One half is a double: it is neither rounded to 0 nor to an infinity. -/
theorem ofExact_half : JsNumber.ofExact (1 / 2) = JsNumber.fin (1 / 2) := by
  have h1 : ¬ (|(1 / 2 : ℚ)| ≤ 1 / 2 ^ 1075) := by
    rw [abs_of_pos (by norm_num : (0 : ℚ) < 1 / 2)]
    norm_num
  have h2 : ¬ ((2 : ℚ) ^ 1024 - 2 ^ 970 ≤ |(1 / 2 : ℚ)|) := by
    rw [abs_of_pos (by norm_num : (0 : ℚ) < 1 / 2)]
    norm_num
  simp only [JsNumber.ofExact, h1, h2, if_false]

theorem toNumber_half : toNumber "0.5".toList = JsNumber.fin (1 / 2) := by
  have h : trimChars "0.5".toList = "0.5".toList := by decide
  simp only [toNumber, h]
  simp [String.toList, unsignedDecimal, natOfDigits, isDigit, List.takeWhile, List.dropWhile]
  norm_num
  exact ofExact_half

/-- C25, the code at the failing input: with the text 0.5 in the page-count field (and a
name and an author chosen), `validateBook` reports no error, since the number of the text
is one half and not `<= 0`, and `handleAddNew` hands `addBook` a book whose `page_count`
is `parseInt` of the text, which is 0. -/
theorem C25_half_page_accepted :
    Books.newErrors sampleHalfPage = ⟨none, none, none⟩
      ∧ Books.validateBook sampleHalfPage = true
      ∧ Books.handleAddNew sampleHalfPage = some ⟨some 1, "Notes".toList, some 0⟩ := by
  have hle : (toNumber sampleHalfPage.page_count).leZero = false := by
    have : sampleHalfPage.page_count = "0.5".toList := rfl
    rw [this, toNumber_half]
    simp [JsNumber.leZero]
  have hname : trimChars sampleHalfPage.name ≠ [] := by decide
  have hauthor : sampleHalfPage.author_id ≠ [] := by decide
  have hpage : sampleHalfPage.page_count ≠ [] := by decide
  have herr : Books.newErrors sampleHalfPage = ⟨none, none, none⟩ := by
    simp [Books.newErrors, hle, hname, hauthor, hpage]
  have hval : Books.validateBook sampleHalfPage = true := by
    simp [Books.validateBook, herr]
  refine ⟨herr, hval, ?_⟩
  have h1 : parseInt sampleHalfPage.author_id = some 1 := by decide
  have h2 : parseInt sampleHalfPage.page_count = some 0 := by decide
  simp only [Books.handleAddNew, hval, if_true, h1, h2]
  rfl

/-! ## The auth context -/

/-- C26: `login` of the auth context with credentials that no user of `MOCK_USERS` has
returns `{ success: false, error: 'Invalid email or password' }`, leaves the slot
`auth_token`, the user and `isAuthenticated` as they were, and sets the error of the
state; from the anonymous state with no token it ends in a state with no user, not
authenticated, and no token. -/
theorem C26_failed_login_stores_nothing (P : Platform) (now : Int)
    (email password : String) (s : AuthContext.AuthState) (token : Option String)
    (hwrong : ¬ ∃ u ∈ MOCK_USERS, u.email = email ∧ u.password = password) :
    AuthContext.login P now email password s token
        = (⟨false, some "Invalid email or password"⟩,
           ⟨s.user, s.isAuthenticated, false, some "Invalid email or password"⟩, token)
      ∧ (AuthContext.login P now email password s token).2.2 = token
      ∧ (AuthContext.login P now email password s token).2.1.user = s.user
      ∧ (AuthContext.login P now email password s token).2.1.isAuthenticated
          = s.isAuthenticated
      ∧ (AuthContext.login P now email password AuthContext.anonymous none).2.1.user = none
      ∧ (AuthContext.login P now email password AuthContext.anonymous none).2.1.isAuthenticated
          = false
      ∧ (AuthContext.login P now email password AuthContext.anonymous none).2.2 = none := by
  have hfind : MOCK_USERS.find? (fun u => u.email == email && u.password == password)
      = none := by
    rw [List.find?_eq_none]
    intro u hu hp
    simp only [Bool.and_eq_true, beq_iff_eq] at hp
    exact hwrong ⟨u, hu, hp.1, hp.2⟩
  have hlogin := login_not_found P now email password hfind
  have hall : ∀ (s : AuthContext.AuthState) (token : Option String),
      AuthContext.login P now email password s token
        = (⟨false, some "Invalid email or password"⟩,
           ⟨s.user, s.isAuthenticated, false, some "Invalid email or password"⟩, token) := by
    intro s token
    simp only [AuthContext.login, hlogin]
    simp
  refine ⟨hall s token, ?_, ?_, ?_, ?_, ?_, ?_⟩
  · rw [hall]
  · rw [hall]
  · rw [hall]
  · rw [hall]; rfl
  · rw [hall]; rfl
  · rw [hall]

/-! ## The pattern of the address -/

theorem matchDigits5_sound (cs z : Text) (h : Stores.matchDigits5 cs = some z) :
    z.length = 5 ∧ z.all isDigit = true ∧ ∃ post, cs = z ++ post := by
  unfold Stores.matchDigits5 at h
  split at h
  · rename_i hc
    simp only [Bool.and_eq_true, decide_eq_true_eq] at hc
    simp only [Option.some.injEq] at h
    subst h
    exact ⟨hc.1, hc.2, cs.drop 5, (List.take_append_drop 5 cs).symm⟩
  · cases h

theorem matchSpaces_sound (cs z : Text) (h : Stores.matchSpaces cs = some z) :
    ∃ sp post, cs = sp ++ z ++ post ∧ sp ≠ [] ∧ sp.all isWhiteSpace = true
      ∧ z.length = 5 ∧ z.all isDigit = true := by
  induction cs with
  | nil => simp [Stores.matchSpaces] at h
  | cons c rest ih =>
    unfold Stores.matchSpaces at h
    split at h
    · rename_i hc
      cases hrest : Stores.matchSpaces rest with
      | some z2 =>
        simp only [hrest, Option.some.injEq] at h
        subst h
        obtain ⟨sp, post, hcs, _, hsp, hz⟩ := ih hrest
        refine ⟨c :: sp, post, by rw [hcs]; simp, by simp, ?_, hz⟩
        simp [hc, hsp]
      | none =>
        simp only [hrest] at h
        obtain ⟨h1, h2, post, hpost⟩ := matchDigits5_sound rest z h
        refine ⟨[c], post, by rw [hpost]; simp, by simp, by simp [hc], h1, h2⟩
    · cases h

theorem matchWord_sound (cs word z : Text) (h : Stores.matchWord cs = some (word, z)) :
    ∃ sp post, cs = word ++ sp ++ z ++ post ∧ word ≠ [] ∧ word.all isWord = true
      ∧ sp ≠ [] ∧ sp.all isWhiteSpace = true ∧ z.length = 5 ∧ z.all isDigit = true := by
  induction cs generalizing word with
  | nil => simp [Stores.matchWord] at h
  | cons c rest ih =>
    unfold Stores.matchWord at h
    split at h
    · rename_i hc
      cases hrest : Stores.matchWord rest with
      | some g =>
        obtain ⟨w2, z2⟩ := g
        simp only [hrest, Option.some.injEq, Prod.mk.injEq] at h
        obtain ⟨hw, hz⟩ := h
        subst hw
        subst hz
        obtain ⟨sp, post, hcs, _, hword, hrest2⟩ := ih w2 hrest
        refine ⟨sp, post, by rw [hcs]; simp, by simp, ?_, hrest2⟩
        simp [hc, hword]
      | none =>
        simp only [hrest, Option.map_eq_some'] at h
        obtain ⟨z2, hsp, heq⟩ := h
        simp only [Prod.mk.injEq] at heq
        obtain ⟨hw, hz⟩ := heq
        subst hw
        subst hz
        obtain ⟨sp, post, hcs, hsp1, hsp2, hz⟩ := matchSpaces_sound rest z2 hsp
        exact ⟨sp, post, by rw [hcs]; simp, by simp, by simp [hc], hsp1, hsp2, hz⟩
    · cases h

theorem stateZipMatch_sound (cs word z : Text)
    (h : Stores.stateZipMatch cs = some (word, z)) :
    word ≠ [] ∧ word.all isWord = true ∧ z.length = 5 ∧ z.all isDigit = true
      ∧ ∃ pre sp post, cs = pre ++ word ++ sp ++ z ++ post
          ∧ sp ≠ [] ∧ sp.all isWhiteSpace = true := by
  induction cs with
  | nil => simp [Stores.stateZipMatch] at h
  | cons c rest ih =>
    unfold Stores.stateZipMatch at h
    cases hm : Stores.matchWord (c :: rest) with
    | some g =>
      simp only [hm, Option.some.injEq] at h
      subst h
      obtain ⟨sp, post, hcs, hw1, hw2, hs1, hs2, hz1, hz2⟩ := matchWord_sound _ _ _ hm
      exact ⟨hw1, hw2, hz1, hz2, [], sp, post, by rw [hcs]; simp, hs1, hs2⟩
    | none =>
      simp only [hm] at h
      obtain ⟨hw1, hw2, hz1, hz2, pre, sp, post, hcs, hs1, hs2⟩ := ih h
      exact ⟨hw1, hw2, hz1, hz2, c :: pre, sp, post, by rw [hcs]; simp, hs1, hs2⟩

theorem reverse_split (p : Char → Bool) (y : Text) :
    y = (y.reverse.dropWhile p).reverse ++ (y.reverse.takeWhile p).reverse := by
  rw [← List.reverse_append, List.takeWhile_append_dropWhile, List.reverse_reverse]

theorem trimChars_infix (x : Text) : ∃ a b, x = a ++ trimChars x ++ b := by
  refine ⟨x.takeWhile isWhiteSpace,
    (((x.dropWhile isWhiteSpace).reverse).takeWhile isWhiteSpace).reverse, ?_⟩
  have h1 : x = x.takeWhile isWhiteSpace ++ x.dropWhile isWhiteSpace :=
    (List.takeWhile_append_dropWhile isWhiteSpace x).symm
  have h3 := reverse_split isWhiteSpace (x.dropWhile isWhiteSpace)
  unfold trimChars
  rw [List.append_assoc, ← h3]
  exact h1

theorem containsStateZip_of_match (t word z : Text)
    (h : Stores.stateZipMatch (trimChars t) = some (word, z)) : containsStateZip t := by
  obtain ⟨hw1, hw2, hz1, hz2, pre, sp, post, hcs, hs1, hs2⟩ := stateZipMatch_sound _ _ _ h
  obtain ⟨a, b, hab⟩ := trimChars_infix t
  refine ⟨a ++ pre, word, sp, z, post ++ b, ?_, hw1, hw2, hs1, hs2, hz1, hz2⟩
  rw [hcs] at hab
  rw [hab]
  simp

/-! ## The add-store form -/

theorem parseAddress_cases (address : Text) :
    ((Stores.parseAddress address).city = [] ∧ (Stores.parseAddress address).zip = []
        ∧ (Stores.addressParts address).length < 3 ∨ trimChars address = [])
      ∨ (3 ≤ (Stores.addressParts address).length
          ∧ (Stores.parseAddress address).address_1 = (Stores.addressParts address).getD 0 []
          ∧ (Stores.parseAddress address).address_2
              = (if (Stores.addressParts address).length > 3 then
                  (Stores.addressParts address).getD 1 [] else [])
          ∧ (Stores.parseAddress address).city
              = (Stores.addressParts address).getD ((Stores.addressParts address).length - 2) []
          ∧ ((∃ state zip,
                Stores.stateZipMatch (trimChars ((Stores.addressParts address).getD
                  ((Stores.addressParts address).length - 1) [])) = some (state, zip)
                ∧ (Stores.parseAddress address).state = state
                ∧ (Stores.parseAddress address).zip = zip)
              ∨ (Stores.stateZipMatch (trimChars ((Stores.addressParts address).getD
                  ((Stores.addressParts address).length - 1) [])) = none
                ∧ (Stores.parseAddress address).zip = []))) := by
  by_cases hb : (decide (address = []) || decide (trimChars address = [])) = true
  · left
    right
    simp only [Bool.or_eq_true, decide_eq_true_eq] at hb
    rcases hb with h | h
    · rw [h]
      rfl
    · exact h
  · by_cases hlen : (Stores.addressParts address).length < 3
    · left
      left
      simp only [Stores.parseAddress, hb, hlen]
      exact ⟨rfl, rfl, trivial⟩
    · right
      cases hm : Stores.stateZipMatch (trimChars ((Stores.addressParts address).getD
          ((Stores.addressParts address).length - 1) [])) with
      | none =>
        simp only [Stores.parseAddress, hb, hlen, hm]
        exact ⟨by omega, rfl, rfl, rfl, Or.inr ⟨trivial, rfl⟩⟩
      | some g =>
        obtain ⟨st, z⟩ := g
        simp only [Stores.parseAddress, hb, hlen, hm]
        exact ⟨by omega, rfl, rfl, rfl, Or.inl ⟨st, z, rfl, rfl, rfl⟩⟩

/-- C27: when the address text, split on commas, has fewer than three segments, or its
second-to-last segment is blank, or its last segment holds no word followed by white
space and five digits, `validateForm` reports an address error and `handleAddNew` does
not call `addStore`; a store that `handleAddNew` hands to `addStore` has a non-empty city,
a non-empty state and a zip of exactly five digits. -/
theorem C27_store_form_address (newStore : Stores.StoreForm) :
    (((Stores.addressParts newStore.address).length < 3
          ∨ (Stores.addressParts newStore.address).getD
              ((Stores.addressParts newStore.address).length - 2) [] = []
          ∨ ¬ containsStateZip ((Stores.addressParts newStore.address).getD
              ((Stores.addressParts newStore.address).length - 1) [])) →
        (Stores.newErrors newStore).address ≠ none
          ∧ Stores.validateForm newStore = false
          ∧ Stores.handleAddNew newStore = none)
      ∧ ∀ store, Stores.handleAddNew newStore = some store →
          store.city ≠ [] ∧ store.state ≠ [] ∧ store.zip.length = 5
            ∧ store.zip.all isDigit = true := by
  constructor
  · intro hcond
    have herr : (Stores.newErrors newStore).address ≠ none := by
      unfold Stores.newErrors
      simp only
      split
      · simp
      · rename_i hnonblank
        have hbad : (Stores.parseAddress newStore.address).city = []
            ∨ (Stores.parseAddress newStore.address).zip = [] := by
          rcases parseAddress_cases newStore.address with hA | hB
          · rcases hA with hA | hA
            · exact Or.inl hA.1
            · exact absurd hA hnonblank
          · obtain ⟨hlen, _, _, hcity, hzip⟩ := hB
            rcases hcond with h1 | h2 | h3
            · omega
            · left
              rw [hcity, h2]
            · right
              rcases hzip with ⟨st, z, hm, _, _⟩ | ⟨_, hz⟩
              · exact absurd (containsStateZip_of_match _ st z hm) h3
              · exact hz
        rcases hbad with h | h
        · simp [h]
        · simp [h]
    have hval : Stores.validateForm newStore = false := by
      unfold Stores.validateForm
      cases ha : (Stores.newErrors newStore).address with
      | none => exact absurd ha herr
      | some msg => simp
    refine ⟨herr, hval, ?_⟩
    simp [Stores.handleAddNew, hval]
  · intro store hstore
    unfold Stores.handleAddNew at hstore
    split at hstore
    · rename_i hval
      simp only [Option.some.injEq] at hstore
      subst hstore
      simp only
      unfold Stores.validateForm at hval
      simp only [Bool.and_eq_true, Option.isNone_iff_eq_none] at hval
      have haddr := hval.2
      unfold Stores.newErrors at haddr
      simp only at haddr
      split at haddr
      · cases haddr
      · rename_i hnonblank
        split at haddr
        · cases haddr
        · rename_i hok
          simp only [Bool.or_eq_true, decide_eq_true_eq, not_or] at hok
          obtain ⟨⟨hcity, hstate⟩, hzip⟩ := hok
          refine ⟨hcity, hstate, ?_⟩
          rcases parseAddress_cases newStore.address with hA | hB
          · rcases hA with hA | hA
            · exact absurd hA.2.1 hzip
            · exact absurd hA hnonblank
          · obtain ⟨_, _, _, _, hz⟩ := hB
            rcases hz with ⟨st, z, hm, _, hzeq⟩ | ⟨_, hz0⟩
            · obtain ⟨_, _, hz1, hz2, _⟩ := stateZipMatch_sound _ _ _ hm
              rw [hzeq]
              exact ⟨hz1, hz2⟩
            · exact absurd hz0 hzip
    · cases hstore

/-! ## The address round trip -/

theorem not_space_of_word (c : Char) (h : isWord c = true) : isWhiteSpace c = false := by
  rw [Bool.eq_false_iff]
  intro hs
  simp only [isWord, isDigit, isWhiteSpace, Bool.or_eq_true, Bool.and_eq_true,
    decide_eq_true_eq] at h hs
  omega

theorem not_space_of_digit (c : Char) (h : isDigit c = true) : isWhiteSpace c = false := by
  apply not_space_of_word
  simp [isWord, h]

theorem not_comma_of_word (c : Char) (h : isWord c = true) : c ≠ ',' := by
  intro hc
  subst hc
  revert h
  decide

theorem splitComma_nocomma (a : Text) (h : ',' ∉ a) : splitComma a = [a] := by
  induction a with
  | nil => rfl
  | cons c rest ih =>
    have hc : c ≠ ',' := fun hc => h (by rw [hc]; exact List.mem_cons_self _ _)
    have hrest : ',' ∉ rest := fun hr => h (List.mem_cons_of_mem c hr)
    simp [splitComma, hc, ih hrest]

theorem splitComma_append (a b : Text) (h : ',' ∉ a) :
    splitComma (a ++ ',' :: b) = a :: splitComma b := by
  induction a with
  | nil => simp [splitComma]
  | cons c rest ih =>
    have hc : c ≠ ',' := fun hc => h (by rw [hc]; exact List.mem_cons_self _ _)
    have hrest : ',' ∉ rest := fun hr => h (List.mem_cons_of_mem c hr)
    simp [splitComma, hc, ih hrest]

theorem trimChars_space_cons (x : Text) : trimChars (' ' :: x) = trimChars x := by
  have h : isWhiteSpace ' ' = true := by decide
  simp [trimChars, List.dropWhile_cons_of_pos h]

theorem trimChars_ends (c d : Char) (mid : Text) (hc : isWhiteSpace c = false)
    (hd : isWhiteSpace d = false) : trimChars (c :: (mid ++ [d])) = c :: (mid ++ [d]) := by
  have hc2 : ¬ isWhiteSpace c = true := by simp [hc]
  have hd2 : ¬ isWhiteSpace d = true := by simp [hd]
  unfold trimChars
  rw [List.dropWhile_cons_of_neg hc2]
  have hrev : (c :: (mid ++ [d])).reverse = d :: (mid.reverse ++ [c]) := by simp
  rw [hrev, List.dropWhile_cons_of_neg hd2]
  simp

theorem trimChars_ne_nil (x : Text) (c : Char) (hc : c ∈ x) (hns : isWhiteSpace c = false) :
    trimChars x ≠ [] := by
  intro h
  unfold trimChars at h
  have h1 : ((x.dropWhile isWhiteSpace).reverse).dropWhile isWhiteSpace = [] := by
    simpa using h
  have h2 : ∀ y ∈ x.dropWhile isWhiteSpace, isWhiteSpace y = true := by
    intro y hy
    exact List.dropWhile_eq_nil_iff.mp h1 y (List.mem_reverse.mpr hy)
  have h3 : (x.dropWhile isWhiteSpace).dropWhile isWhiteSpace = [] :=
    List.dropWhile_eq_nil_iff.mpr h2
  rw [List.dropWhile_idempotent] at h3
  have := List.dropWhile_eq_nil_iff.mp h3 c hc
  rw [hns] at this
  exact Bool.noConfusion this

theorem matchDigits5_self (z : Text) (hlen : z.length = 5) (hd : z.all isDigit = true) :
    Stores.matchDigits5 z = some z := by
  have ht : z.take 5 = z := List.take_of_length_le (by omega)
  simp [Stores.matchDigits5, ht, hlen, hd]

theorem matchSpaces_space (z : Text) (hlen : z.length = 5) (hd : z.all isDigit = true) :
    Stores.matchSpaces (' ' :: z) = some z := by
  have hsp : isWhiteSpace ' ' = true := by decide
  have hz : Stores.matchSpaces z = none := by
    cases z with
    | nil => rfl
    | cons d rest =>
      have hdd : isDigit d = true := by
        simp only [List.all_cons, Bool.and_eq_true] at hd
        exact hd.1
      simp [Stores.matchSpaces, not_space_of_digit d hdd]
  simp [Stores.matchSpaces, hsp, hz, matchDigits5_self z hlen hd]

theorem matchWord_state (c : Char) (state z : Text) (hc : isWord c = true)
    (hs : state.all isWord = true) (hlen : z.length = 5) (hd : z.all isDigit = true) :
    Stores.matchWord (c :: (state ++ ' ' :: z)) = some (c :: state, z) := by
  induction state generalizing c with
  | nil =>
    have hw : Stores.matchWord (' ' :: z) = none := by
      have : isWord ' ' = false := by decide
      simp [Stores.matchWord, this]
    simp only [List.nil_append]
    rw [Stores.matchWord]
    simp only [hc, if_true, hw, matchSpaces_space z hlen hd, Option.map_some']
  | cons c2 rest ih =>
    simp only [List.all_cons, Bool.and_eq_true] at hs
    have := ih c2 hs.1 hs.2
    simp only [List.cons_append] at this ⊢
    rw [Stores.matchWord]
    simp [hc, this]

theorem stateZipMatch_state (state z : Text) (hne : state ≠ [])
    (hs : state.all isWord = true) (hlen : z.length = 5) (hd : z.all isDigit = true) :
    Stores.stateZipMatch (state ++ ' ' :: z) = some (state, z) := by
  cases state with
  | nil => exact absurd rfl hne
  | cons c rest =>
    simp only [List.all_cons, Bool.and_eq_true] at hs
    have := matchWord_state c rest z hs.1 hs.2 hlen hd
    simp only [List.cons_append]
    rw [Stores.stateZipMatch, this]

theorem trimChars_state_zip (state z : Text) (hne : state ≠ [])
    (hs : state.all isWord = true) (hlen : z.length = 5) (hd : z.all isDigit = true) :
    trimChars (state ++ ' ' :: z) = state ++ ' ' :: z := by
  cases state with
  | nil => exact absurd rfl hne
  | cons c rest =>
    simp only [List.all_cons, Bool.and_eq_true] at hs
    rcases List.eq_nil_or_concat z with hz | ⟨zs, d, hz⟩
    · rw [hz] at hlen
      simp at hlen
    · have hdd : isDigit d = true := by
        rw [hz] at hd
        simp only [List.concat_eq_append, List.all_append, List.all_cons, List.all_nil,
          Bool.and_true, Bool.and_eq_true] at hd
        exact hd.2
      have hform : (c :: rest) ++ ' ' :: z = c :: ((rest ++ ' ' :: zs) ++ [d]) := by
        rw [hz]
        simp
      rw [hform]
      exact trimChars_ends c d _ (not_space_of_word c hs.1) (not_space_of_digit d hdd)

theorem nocomma_of_word (t : Text) (h : t.all isWord = true) : ',' ∉ t := by
  intro hmem
  have := List.all_eq_true.mp h ',' hmem
  exact not_comma_of_word ',' this rfl

theorem nocomma_of_digit (t : Text) (h : t.all isDigit = true) : ',' ∉ t := by
  apply nocomma_of_word
  rw [List.all_eq_true] at h ⊢
  intro c hc
  simp [isWord, h c hc]

theorem nocomma_state_zip (state z : Text) (hs : state.all isWord = true)
    (hd : z.all isDigit = true) : ',' ∉ ' ' :: (state ++ ' ' :: z) := by
  intro hmem
  rcases List.mem_cons.mp hmem with h | h
  · revert h
    decide
  · rcases List.mem_append.mp h with h | h
    · exact nocomma_of_word state hs h
    · rcases List.mem_cons.mp h with h | h
      · revert h
        decide
      · exact nocomma_of_digit z hd h

theorem parts_tail (city state z : Text) (hc : ',' ∉ city) (hct : trimChars city = city)
    (hne : state ≠ []) (hs : state.all isWord = true) (hlen : z.length = 5)
    (hd : z.all isDigit = true) :
    (splitComma (' ' :: (city ++ ',' :: ' ' :: (state ++ ' ' :: z)))).map trimChars
      = [city, state ++ ' ' :: z] := by
  have hform : ' ' :: (city ++ ',' :: ' ' :: (state ++ ' ' :: z))
      = (' ' :: city) ++ ',' :: (' ' :: (state ++ ' ' :: z)) := rfl
  have hc2 : ',' ∉ ' ' :: city := by
    intro hmem
    rcases List.mem_cons.mp hmem with h | h
    · revert h
      decide
    · exact hc h
  rw [hform, splitComma_append _ _ hc2, splitComma_nocomma _ (nocomma_state_zip state z hs hd)]
  simp only [List.map_cons, List.map_nil, trimChars_space_cons, hct,
    trimChars_state_zip state z hne hs hlen hd]

theorem parseAddress_of_parts (address a1 a2 city state z : Text) (hne : address ≠ [])
    (hnb : trimChars address ≠ [])
    (hparts : Stores.addressParts address = [a1, city, state ++ ' ' :: z] ∧ a2 = []
      ∨ Stores.addressParts address = [a1, a2, city, state ++ ' ' :: z])
    (hsne : state ≠ []) (hs : state.all isWord = true) (hlen : z.length = 5)
    (hd : z.all isDigit = true) :
    Stores.parseAddress address = ⟨a1, a2, city, state, z⟩ := by
  have hb : ¬ (decide (address = []) || decide (trimChars address = [])) = true := by
    simp [hne, hnb]
  have htrim := trimChars_state_zip state z hsne hs hlen hd
  have hmatch := stateZipMatch_state state z hsne hs hlen hd
  rcases hparts with ⟨hp, ha2⟩ | hp
  · simp only [Stores.parseAddress, hb, hp]
    simp [htrim, hmatch, ha2]
  · simp only [Stores.parseAddress, hb, hp]
    simp [htrim, hmatch]

/-- C29: for a store whose `address_1`, `address_2` and city hold no comma and no white
space at either end, whose state is a non-empty run of word characters and whose zip is
five digits, `parseAddress` of the `full_address` text of the store returns its
`address_1`, city, state and zip, and as `address_2` the one of the store, which is
empty when the store has none. -/
theorem C29_address_round_trip (store : Stores.StoreAddress)
    (h1 : ',' ∉ store.address_1) (h1t : trimChars store.address_1 = store.address_1)
    (h2 : ∀ a2, store.address_2 = some a2 → ',' ∉ a2 ∧ trimChars a2 = a2)
    (hc : ',' ∉ store.city) (hct : trimChars store.city = store.city)
    (hsne : store.state ≠ []) (hs : store.state.all isWord = true)
    (hlen : store.zip.length = 5) (hd : store.zip.all isDigit = true) :
    Stores.parseAddress (Stores.fullAddress store)
      = ⟨store.address_1,
         match store.address_2 with
         | some a2 => a2
         | none => [],
         store.city, store.state, store.zip⟩ := by
  obtain ⟨a1, a2o, city, state, z⟩ := store
  simp only at h1 h1t h2 hc hct hsne hs hlen hd ⊢
  have htail := parts_tail city state z hc hct hsne hs hlen hd
  obtain ⟨c, rest, hstate⟩ : ∃ c rest, state = c :: rest := by
    cases state with
    | nil => exact absurd rfl hsne
    | cons c rest => exact ⟨c, rest, rfl⟩
  have hcw : isWord c = true := by
    rw [hstate] at hs
    simp only [List.all_cons, Bool.and_eq_true] at hs
    exact hs.1
  have hcns := not_space_of_word c hcw
  have hshort : Stores.fullAddress ⟨a1, none, city, state, z⟩
      = a1 ++ ',' :: ' ' :: (city ++ ',' :: ' ' :: (state ++ ' ' :: z)) := by
    simp [Stores.fullAddress, String.toList]
  have hshortParts : Stores.addressParts
      (a1 ++ ',' :: ' ' :: (city ++ ',' :: ' ' :: (state ++ ' ' :: z)))
      = [a1, city, state ++ ' ' :: z] := by
    unfold Stores.addressParts
    rw [splitComma_append _ _ h1, List.map_cons, h1t, htail]
  have hshortGoal : Stores.parseAddress
      (a1 ++ ',' :: ' ' :: (city ++ ',' :: ' ' :: (state ++ ' ' :: z)))
      = ⟨a1, [], city, state, z⟩ := by
    apply parseAddress_of_parts _ a1 [] city state z ?_ ?_ (Or.inl ⟨hshortParts, rfl⟩)
      hsne hs hlen hd
    · simp
    · apply trimChars_ne_nil _ c ?_ hcns
      rw [hstate]
      simp
  cases a2o with
  | none =>
    rw [hshort]
    exact hshortGoal
  | some a2 =>
    by_cases ha2 : a2 = []
    · have hfull : Stores.fullAddress ⟨a1, some a2, city, state, z⟩
          = a1 ++ ',' :: ' ' :: (city ++ ',' :: ' ' :: (state ++ ' ' :: z)) := by
        simp [Stores.fullAddress, String.toList, ha2]
      rw [hfull, hshortGoal, ha2]
    · obtain ⟨h2c, h2t⟩ := h2 a2 rfl
      have hfull : Stores.fullAddress ⟨a1, some a2, city, state, z⟩
          = a1 ++ ',' :: ((' ' :: a2)
              ++ ',' :: ' ' :: (city ++ ',' :: ' ' :: (state ++ ' ' :: z))) := by
        simp [Stores.fullAddress, String.toList, ha2]
      have h2c2 : ',' ∉ ' ' :: a2 := by
        intro hmem
        rcases List.mem_cons.mp hmem with h | h
        · revert h
          decide
        · exact h2c h
      have hparts : Stores.addressParts
          (a1 ++ ',' :: ((' ' :: a2)
              ++ ',' :: ' ' :: (city ++ ',' :: ' ' :: (state ++ ' ' :: z))))
          = [a1, a2, city, state ++ ' ' :: z] := by
        unfold Stores.addressParts
        rw [splitComma_append _ _ h1, splitComma_append _ _ h2c2, List.map_cons,
          List.map_cons, h1t, trimChars_space_cons, h2t, htail]
      rw [hfull]
      apply parseAddress_of_parts _ a1 a2 city state z ?_ ?_ (Or.inr hparts) hsne hs hlen hd
      · simp
      · apply trimChars_ne_nil _ c ?_ hcns
        rw [hstate]
        simp

/-! ## The theorems of the views, the forms and the contexts at the sample data -/

theorem C23_books_view_stores_witness :
    sampleOneBook[0]? = some ⟨1, [("name", Value.str "Notes")]⟩
      ∧ ∃ row, (Home.booksWithStores (fun _ => "") sampleOneBook [] sampleNamelessStores
            sampleOneItem)[0]? = some row
          ∧ row.stores.length = 1 := by
  refine ⟨by decide, ?_⟩
  obtain ⟨row, hrow, hlen, _⟩ :=
    C23_books_view_stores (fun _ => "") sampleOneBook [] sampleNamelessStores sampleOneItem
      0 ⟨1, [("name", Value.str "Notes")]⟩ (by decide)
  refine ⟨row, hrow, ?_⟩
  rw [hlen]
  decide

theorem C26_failed_login_stores_nothing_witness :
    (¬ ∃ u ∈ MOCK_USERS, u.email = "admin@library.com" ∧ u.password = "wrong")
      ∧ (AuthContext.login samplePlatform 5 "admin@library.com" "wrong"
            AuthContext.anonymous none).2.2 = none :=
  ⟨by decide,
   (C26_failed_login_stores_nothing samplePlatform 5 "admin@library.com" "wrong"
      AuthContext.anonymous none (by decide)).2.2.2.2.2.2⟩

theorem C27_store_form_address_witness :
    Stores.handleAddNew sampleStoreForm
        = some ⟨"Shop A".toList, "123 Main St".toList, [], "Athens".toList, "GA".toList,
            "30605".toList⟩
      ∧ "30605".toList.length = 5 :=
  ⟨by decide,
   ((C27_store_form_address sampleStoreForm).2
      ⟨"Shop A".toList, "123 Main St".toList, [], "Athens".toList, "GA".toList,
        "30605".toList⟩ (by decide)).2.2.1⟩

theorem C28_update_agrees_witness :
    (ids (current Kind.books sampleFetch sampleStorage)).Nodup
      ∧ current Kind.books sampleFetch
            (mockAPI.update Kind.books sampleFetch 2 sampleRename sampleStorage).2
          = LibraryContext.updateX 2 sampleRename (current Kind.books sampleFetch sampleStorage) :=
  ⟨by decide,
   ((C28_update_agrees Kind.books sampleFetch 2 sampleRename sampleStorage (by decide)).1
      (by decide)).1⟩

theorem C29_address_round_trip_witness :
    Stores.parseAddress (Stores.fullAddress sampleStoreAddress)
      = ⟨"123 Main St".toList, "Suite 5".toList, "Athens".toList, "GA".toList,
          "30605".toList⟩ :=
  C29_address_round_trip sampleStoreAddress (by decide) (by decide)
    (fun a2 h => by
      have h2 : "Suite 5".toList = a2 := Option.some.inj h
      rw [← h2]
      decide)
    (by decide) (by decide) (by decide) (by decide) (by decide) (by decide)

end StoreBooks
